import Mathlib

/-!
# Verification of `video_core/renderer_vulkan/wrapper.h`

A shallow embedding of the ownership layer of the Vulkan wrapper:
the result model (`Check`, `Filter`), the array view `Span`, the owning
`Handle` (with and without an owner), the wait of `Fence` and the pool batch
`PoolAllocations`, followed by the theorems about them.

Conventions of the embedding.

* Pointers and Vulkan handles are addresses, natural numbers, and `nullptr`
  is the address `0`.  A `const Dispatch*` is the address of the table and
  `*dld` names the table stored there.
* `VkResult` is a signed integer.
* The functions `Destroy` and `Free` are declared in the header and defined
  elsewhere.  A call of one of them is recorded in a log, in call order, with
  the arguments it received; the status a call of `Free` answers is supplied
  by the environment.
* Objects live in a memory indexed by their address, so that a reference
  parameter (`Handle&& rhs`) is an address and may alias `this`.
* Element addresses count elements: `ptr + i` is the address of the element
  `i` places after the one at `ptr`, and a function `read` gives the element
  stored at an address.
* The entry points of a dispatch table are filled outside the header; the
  status `vkWaitForFences` answers is supplied by the environment.
-/

namespace Vulkan.vk

/-! ## Result model -/

/-- The native status code, a signed integer. -/
abbrev VkResult := Int

/-- Modelled from the spec: the success status of the native interface, the
constant `VK_SUCCESS` of `vulkan/vulkan.h`, a header that is not among the
sources.  The native header gives it the value zero. -/
def VK_SUCCESS : VkResult := 0

/-- Vulkan exception generated from a `VkResult`. -/
structure Exception where
  result : VkResult
  deriving DecidableEq, Repr

/-- Throws a Vulkan exception if result is not success. -/
def Check (result : VkResult) : Except Exception Unit :=
  if result ≠ VK_SUCCESS then
    throw (Exception.mk result)
  else
    pure ()

/-- Throws a Vulkan exception if result is an error; returns result. -/
def Filter (result : VkResult) : Except Exception VkResult :=
  if result < 0 then
    throw (Exception.mk result)
  else
    pure result

/-! ## Span -/

/-- Span for Vulkan arrays: the private members `ptr` and `num`
(`num` is a `std::size_t`). -/
structure Span where
  ptr : Nat := 0
  num : Nat := 0
  deriving DecidableEq, Repr

namespace Span

/-- Construct a span from a pointer and a size. -/
def fromPtr (ptr : Nat) (num : Nat) : Span :=
  { ptr := ptr, num := num }

/-- Returns the data pointer by the span. -/
def data (s : Span) : Nat :=
  s.ptr

/-- Returns the number of elements in the span, as a 32 bits integer:
`static_cast<u32>(num)`. -/
def size (s : Span) : Nat :=
  s.num % 2 ^ 32

/-- Construct an empty span: `Span() = default`, with the default member
initialisers `ptr = nullptr` and `num = 0`. -/
def ctorDefault : Span :=
  {}

/-- Construct a span from a single element: `ptr{&value}, num{1}`, where
`value` is the address of the referenced element. -/
def fromValue (value : Nat) : Span :=
  { ptr := value, num := 1 }

/-- Returns true when the span is empty: `num == 0`. -/
def empty (s : Span) : Bool :=
  s.num == 0

/-- Returns a reference to the element in the passed index: `ptr[index]`.
Addresses count elements and `read` gives the element stored at an address. -/
def index {α : Type} (read : Nat → α) (s : Span) (index : Nat) : α :=
  read (s.ptr + index)

/-- Returns an iterator to the beginning of the span. -/
def begin (s : Span) : Nat :=
  s.ptr

/-- Returns an iterator to the end of the span: `ptr + num`, with addresses
counted in elements and no wrapping, which is the pointer as long as the
viewed elements are a real array; `Span.endAddr` is the machine address. -/
def end_ (s : Span) : Nat :=
  s.ptr + s.num

/-- Returns an iterator to the beginning of the span. -/
def cbegin (s : Span) : Nat :=
  s.ptr

/-- Returns an iterator to the end of the span: `ptr + num`. -/
def cend (s : Span) : Nat :=
  s.ptr + s.num

end Span

/-- A contiguous container as the range constructor of `Span` sees it:
`std::data(range)`, the address of its first element, and `std::size(range)`,
a `std::size_t`. -/
structure Range where
  data : Nat
  size : Nat
  deriving DecidableEq, Repr

/-- The element `c[i]` of a contiguous container: the element stored `i`
places after its first one. -/
def Range.index {α : Type} (read : Nat → α) (c : Range) (i : Nat) : α :=
  read (c.data + i)

/-- A 64-bit value read as a `std::ptrdiff_t`, a signed 64-bit integer. -/
def toPtrdiff (x : Nat) : Int :=
  if x % 2 ^ 64 < 2 ^ 63 then ((x % 2 ^ 64 : Nat) : Int)
  else ((x % 2 ^ 64 : Nat) : Int) - 2 ^ 64

/-- The byte address `begin()` returns, the 64-bit pointer `ptr`. -/
def Span.beginAddr (s : Span) : Nat :=
  s.ptr % 2 ^ 64

/-- The byte address `end()` returns for elements of `elemSize` bytes:
`ptr + num` advances the byte address by `num * elemSize` and wraps at 64
bits. -/
def Span.endAddr (elemSize : Nat) (s : Span) : Nat :=
  (s.ptr + s.num * elemSize) % 2 ^ 64

/-- The distance `end() - begin()` for elements of `elemSize` bytes: the
difference of the two byte addresses, taken in 64 bits and read as a
`std::ptrdiff_t`, divided by the element size. -/
def Span.distance (elemSize : Nat) (s : Span) : Int :=
  (toPtrdiff (s.endAddr elemSize + 2 ^ 64 - s.beginAddr)).tdiv (elemSize : Int)

/-! ## Memory and call log -/

/-- The null address. -/
def nullptr : Nat := 0

/-- Store `v` at the address `p` of the object memory `m`. -/
def write {α : Type} (m : Nat → α) (p : Nat) (v : α) : Nat → α :=
  fun q => if q = p then v else m q

/-- A recorded call of `Destroy`: the overload with an owner,
`Destroy(owner, handle, *dld)`, or the overload without one,
`Destroy(handle, *dld)`.  The table is recorded by its address. -/
inductive DestroyCall where
  | owned (owner handle dld : Nat)
  | ownerless (handle dld : Nat)
  deriving DecidableEq, Repr

/-- The handle value a recorded `Destroy` call was given. -/
def DestroyCall.handle : DestroyCall → Nat
  | .owned _ h _ => h
  | .ownerless h _ => h

/-- The state a `Handle` method runs in: the objects by address and the
`Destroy` calls made so far, oldest first. -/
structure World (α : Type) where
  mem : Nat → α
  log : List DestroyCall

/-! ## Handle with an owning type -/

/-- Data members of `Handle<Type, OwnerType, Dispatch>` with their default
member initialisers. -/
structure Handle where
  handle : Nat := nullptr
  owner : Nat := nullptr
  dld : Nat := nullptr
  deriving DecidableEq, Repr, Inhabited

namespace Handle

/-- Assignment to the member `handle` of the object at `p`. -/
def setHandle (p v : Nat) (w : World Handle) : World Handle :=
  { w with mem := write w.mem p { w.mem p with handle := v } }

/-- Assignment to the member `owner` of the object at `p`. -/
def setOwner (p v : Nat) (w : World Handle) : World Handle :=
  { w with mem := write w.mem p { w.mem p with owner := v } }

/-- Assignment to the member `dld` of the object at `p`. -/
def setDld (p v : Nat) (w : World Handle) : World Handle :=
  { w with mem := write w.mem p { w.mem p with dld := v } }

/-- The call `Destroy(owner, handle, dld)` of the overload with an owner. -/
def Destroy (owner handle dld : Nat) (w : World Handle) : World Handle :=
  { w with log := w.log ++ [DestroyCall.owned owner handle dld] }

/-- Destroys the held object if it exists. -/
def Release (this : Nat) (w : World Handle) : World Handle :=
  if (w.mem this).handle ≠ nullptr then
    Destroy (w.mem this).owner (w.mem this).handle (w.mem this).dld w
  else
    w

/-- Construct a handle and hold its ownership:
`Handle(Type handle_, OwnerType owner_, const Dispatch& dld_)`. -/
def ctor (this handle_ owner_ dld_ : Nat) (w : World Handle) : World Handle :=
  { w with mem := write w.mem this { handle := handle_, owner := owner_, dld := dld_ } }

/-- Construct an empty handle: `Handle() = default`. -/
def ctorDefault (this : Nat) (w : World Handle) : World Handle :=
  { w with mem := write w.mem this {} }

/-- Construct a handle transfering the ownership from another handle:
`handle{std::exchange(rhs.handle, nullptr)}, owner{rhs.owner}, dld{rhs.dld}`. -/
def moveCtor (this rhs : Nat) (w : World Handle) : World Handle :=
  let old := (w.mem rhs).handle
  let w1 := setHandle rhs nullptr w
  let w2 := setHandle this old w1
  let w3 := setOwner this (w2.mem rhs).owner w2
  setDld this (w3.mem rhs).dld w3

/-- Assign the current handle transfering the ownership from another handle:
`operator=(Handle&& rhs)`. -/
def moveAssign (this rhs : Nat) (w : World Handle) : World Handle :=
  let w0 := Release this w
  let old := (w0.mem rhs).handle
  let w1 := setHandle rhs nullptr w0
  let w2 := setHandle this old w1
  let w3 := setOwner this (w2.mem rhs).owner w2
  setDld this (w3.mem rhs).dld w3

/-- Destroys the current handle if it existed: `~Handle()`. -/
def dtor (this : Nat) (w : World Handle) : World Handle :=
  Release this w

/-- Destroys any held object: `reset()`. -/
def reset (this : Nat) (w : World Handle) : World Handle :=
  setHandle this nullptr (Release this w)

/-- Returns the held Vulkan handle: `operator*`. -/
def deref (this : Nat) (w : World Handle) : Nat :=
  (w.mem this).handle

/-- Returns true when there is a held object: `operator bool`. -/
def toBool (this : Nat) (w : World Handle) : Bool :=
  (w.mem this).handle != nullptr

end Handle

/-! ## Fence -/

/-- The arguments of a call
`dld->vkWaitForFences(device, fenceCount, pFences, waitAll, timeout)`: the
table the entry point is taken from, by its address, and the `fenceCount`
handles found at `pFences`. -/
structure WaitForFencesCall where
  dld : Nat
  device : Nat
  fenceCount : Nat
  fences : List Nat
  waitAll : Bool
  timeout : Nat
  deriving DecidableEq, Repr

/-- The status the entry point `vkWaitForFences` of a table answers to a call;
the tables are filled outside the header. -/
abbrev WaitForFencesFn := WaitForFencesCall → VkResult

namespace Fence

/-- The default argument of `Wait`: `std::numeric_limits<u64>::max()`. -/
def defaultTimeout : Nat :=
  2 ^ 64 - 1

/-- The arguments `Wait` passes for the fence at `this`:
`(owner, 1, &handle, true, timeout)` through the table `dld`. -/
def waitCall (this timeout : Nat) (w : World Handle) : WaitForFencesCall :=
  { dld := (w.mem this).dld
    device := (w.mem this).owner
    fenceCount := 1
    fences := [(w.mem this).handle]
    waitAll := true
    timeout := timeout }

/-- The method `Fence::Wait(u64 timeout)`:
`return dld->vkWaitForFences(owner, 1, &handle, true, timeout);`.
The result is an `Except` so that raising can be told from returning. -/
def Wait (vkWaitForFences : WaitForFencesFn) (this timeout : Nat) (w : World Handle) :
    Except Exception VkResult :=
  pure (vkWaitForFences (waitCall this timeout w))

/-- The call `Wait()` without an argument, which takes the default one. -/
def WaitDefault (vkWaitForFences : WaitForFencesFn) (this : Nat) (w : World Handle) :
    Except Exception VkResult :=
  Wait vkWaitForFences this defaultTimeout w

end Fence

/-! ## Handle without an owning type -/

/-- Data members of the specialisation `Handle<Type, NoOwner, Dispatch>`. -/
structure HandleNoOwner where
  handle : Nat := nullptr
  dld : Nat := nullptr
  deriving DecidableEq, Repr, Inhabited

namespace HandleNoOwner

/-- Assignment to the member `handle` of the object at `p`. -/
def setHandle (p v : Nat) (w : World HandleNoOwner) : World HandleNoOwner :=
  { w with mem := write w.mem p { w.mem p with handle := v } }

/-- Assignment to the member `dld` of the object at `p`. -/
def setDld (p v : Nat) (w : World HandleNoOwner) : World HandleNoOwner :=
  { w with mem := write w.mem p { w.mem p with dld := v } }

/-- The call `Destroy(handle, dld)` of the overload without an owner. -/
def Destroy (handle dld : Nat) (w : World HandleNoOwner) : World HandleNoOwner :=
  { w with log := w.log ++ [DestroyCall.ownerless handle dld] }

/-- Destroys the held object if it exists. -/
def Release (this : Nat) (w : World HandleNoOwner) : World HandleNoOwner :=
  if (w.mem this).handle ≠ nullptr then
    Destroy (w.mem this).handle (w.mem this).dld w
  else
    w

/-- Construct a handle and hold its ownership:
`Handle(Type handle_, const Dispatch& dld_)`. -/
def ctor (this handle_ dld_ : Nat) (w : World HandleNoOwner) : World HandleNoOwner :=
  { w with mem := write w.mem this { handle := handle_, dld := dld_ } }

/-- Construct an empty handle: `Handle() noexcept = default`. -/
def ctorDefault (this : Nat) (w : World HandleNoOwner) : World HandleNoOwner :=
  { w with mem := write w.mem this {} }

/-- Construct a handle transfering ownership from another handle:
`handle{std::exchange(rhs.handle, nullptr)}, dld{rhs.dld}`. -/
def moveCtor (this rhs : Nat) (w : World HandleNoOwner) : World HandleNoOwner :=
  let old := (w.mem rhs).handle
  let w1 := setHandle rhs nullptr w
  let w2 := setHandle this old w1
  setDld this (w2.mem rhs).dld w2

/-- Assign the current handle transfering the ownership from another handle:
`operator=(Handle&& rhs)`. -/
def moveAssign (this rhs : Nat) (w : World HandleNoOwner) : World HandleNoOwner :=
  let w0 := Release this w
  let old := (w0.mem rhs).handle
  let w1 := setHandle rhs nullptr w0
  let w2 := setHandle this old w1
  setDld this (w2.mem rhs).dld w2

/-- Destroys the current handle if it existed: `~Handle()`. -/
def dtor (this : Nat) (w : World HandleNoOwner) : World HandleNoOwner :=
  Release this w

/-- Destroys any held object: `reset()`. -/
def reset (this : Nat) (w : World HandleNoOwner) : World HandleNoOwner :=
  setHandle this nullptr (Release this w)

/-- Returns the held Vulkan handle: `operator*`. -/
def deref (this : Nat) (w : World HandleNoOwner) : Nat :=
  (w.mem this).handle

/-- Returns true when there is a held object: `operator bool`. -/
def toBool (this : Nat) (w : World HandleNoOwner) : Bool :=
  (w.mem this).handle != nullptr

end HandleNoOwner

/-! ## Array of a pool allocation -/

/-- A recorded call `Free(device, pool, span, *dld)`; the table is recorded
by its address. -/
structure FreeCall where
  device : Nat
  pool : Nat
  span : Span
  dld : Nat
  deriving DecidableEq, Repr

/-- The status a call of `Free` answers, given the calls recorded before it
and the call itself.  `Free` is defined outside the header, so its answer is
supplied by the environment. -/
abbrev FreeFn := List FreeCall → FreeCall → VkResult

/-- Data members of `PoolAllocations<AllocationType, PoolType>` with their
default member initialisers.  The `std::unique_ptr` member `allocations` is
the address of the owned array, `nullptr` when it owns none. -/
structure PoolAllocations where
  allocations : Nat := nullptr
  num : Nat := 0
  device : Nat := nullptr
  pool : Nat := nullptr
  dld : Nat := nullptr
  deriving DecidableEq, Repr, Inhabited

/-- The state a `PoolAllocations` method runs in: the objects by address and
the `Free` calls made so far, oldest first. -/
structure PoolWorld where
  mem : Nat → PoolAllocations
  log : List FreeCall

/-- How a call ends: it returns to its caller in the state `w`, or
`std::terminate()` is called in the state `w` and the process ends. -/
inductive Exec (σ : Type) where
  | returns (w : σ)
  | terminates (w : σ)

/-- True when the call ended in `std::terminate()`. -/
def Exec.terminated {σ : Type} : Exec σ → Bool
  | .returns _ => false
  | .terminates _ => true

/-- The state the call ended in. -/
def Exec.state {σ : Type} : Exec σ → σ
  | .returns w => w
  | .terminates w => w

namespace PoolAllocations

/-- Assignment to the member `allocations` of the object at `p`. -/
def setAllocations (p v : Nat) (w : PoolWorld) : PoolWorld :=
  { w with mem := write w.mem p { w.mem p with allocations := v } }

/-- Assignment to the member `num` of the object at `p`. -/
def setNum (p v : Nat) (w : PoolWorld) : PoolWorld :=
  { w with mem := write w.mem p { w.mem p with num := v } }

/-- Assignment to the member `device` of the object at `p`. -/
def setDevice (p v : Nat) (w : PoolWorld) : PoolWorld :=
  { w with mem := write w.mem p { w.mem p with device := v } }

/-- Assignment to the member `pool` of the object at `p`. -/
def setPool (p v : Nat) (w : PoolWorld) : PoolWorld :=
  { w with mem := write w.mem p { w.mem p with pool := v } }

/-- Assignment to the member `dld` of the object at `p`. -/
def setDld (p v : Nat) (w : PoolWorld) : PoolWorld :=
  { w with mem := write w.mem p { w.mem p with dld := v } }

/-- The arguments `Release` passes to `Free` for the object at `this`:
the device, the pool, `Span(allocations.get(), num)` and `*dld`. -/
def freeCall (this : Nat) (w : PoolWorld) : FreeCall :=
  { device := (w.mem this).device
    pool := (w.mem this).pool
    span := Span.fromPtr (w.mem this).allocations (w.mem this).num
    dld := (w.mem this).dld }

/-- Destroys the held allocations if they exist. -/
def Release (Free : FreeFn) (this : Nat) (w : PoolWorld) : Exec PoolWorld :=
  if (w.mem this).allocations = nullptr then
    Exec.returns w
  else
    let call := freeCall this w
    let result := Free w.log call
    let w1 : PoolWorld := { w with log := w.log ++ [call] }
    if result ≠ VK_SUCCESS then
      Exec.terminates w1
    else
      Exec.returns w1

/-- Construct an empty allocation: `PoolAllocations() = default`. -/
def ctorDefault (this : Nat) (w : PoolWorld) : PoolWorld :=
  { w with mem := write w.mem this {} }

/-- Construct an allocation:
`PoolAllocations(allocations, num, device, pool, dld)`. -/
def ctor (this allocations num device pool dld : Nat) (w : PoolWorld) : PoolWorld :=
  let obj : PoolAllocations :=
    { allocations := allocations, num := num, device := device, pool := pool, dld := dld }
  { w with mem := write w.mem this obj }

/-- Construct an allocation transfering ownership from another allocation:
`allocations{std::move(rhs.allocations)}, num{rhs.num}, device{rhs.device},
pool{rhs.pool}, dld{rhs.dld}`.  Moving a `std::unique_ptr` hands over its
pointer and leaves the source null. -/
def moveCtor (this rhs : Nat) (w : PoolWorld) : PoolWorld :=
  let old := (w.mem rhs).allocations
  let w1 := setAllocations rhs nullptr w
  let w2 := setAllocations this old w1
  let w3 := setNum this (w2.mem rhs).num w2
  let w4 := setDevice this (w3.mem rhs).device w3
  let w5 := setPool this (w4.mem rhs).pool w4
  setDld this (w5.mem rhs).dld w5

/-- Assign an allocation transfering ownership from another allocation:
`operator=(PoolAllocations&& rhs)`.  The move assignment of the
`std::unique_ptr` member is `reset(rhs.allocations.release())`. -/
def moveAssign (Free : FreeFn) (this rhs : Nat) (w : PoolWorld) : Exec PoolWorld :=
  match Release Free this w with
  | Exec.terminates w0 => Exec.terminates w0
  | Exec.returns w0 =>
    let old := (w0.mem rhs).allocations
    let w1 := setAllocations rhs nullptr w0
    let w2 := setAllocations this old w1
    let w3 := setNum this (w2.mem rhs).num w2
    let w4 := setDevice this (w3.mem rhs).device w3
    let w5 := setPool this (w4.mem rhs).pool w4
    Exec.returns (setDld this (w5.mem rhs).dld w5)

/-- Destroys any held allocation: `~PoolAllocations()`. -/
def dtor (Free : FreeFn) (this : Nat) (w : PoolWorld) : Exec PoolWorld :=
  Release Free this w

/-- Returns the number of allocations. -/
def size (this : Nat) (w : PoolWorld) : Nat :=
  (w.mem this).num

/-- Returns a pointer to the array of allocations: `allocations.get()`. -/
def data (this : Nat) (w : PoolWorld) : Nat :=
  (w.mem this).allocations

/-- Returns the allocation in the specified index: `allocations[index]`.
Addresses count elements and `read` gives the allocation stored at an
address. -/
def index (read : Nat → Nat) (this index : Nat) (w : PoolWorld) : Nat :=
  read ((w.mem this).allocations + index)

/-- True when a pool fails to construct: `return !device;`. -/
def IsOutOfPoolMemory (this : Nat) (w : PoolWorld) : Bool :=
  (w.mem this).device == nullptr

end PoolAllocations

/-! ## Programs over a collection of objects -/

/-- One public operation on a collection of `Handle` objects with an owner,
each object named by its address. -/
inductive HandleOp where
  | construct (this handle_ owner_ dld_ : Nat)
  | constructDefault (this : Nat)
  | moveConstruct (this rhs : Nat)
  | moveAssign (this rhs : Nat)
  | reset (this : Nat)
  | destroy (this : Nat)
  deriving DecidableEq, Repr

/-- One public operation on a collection of `Handle` objects without an
owner. -/
inductive HandleNoOwnerOp where
  | construct (this handle_ dld_ : Nat)
  | constructDefault (this : Nat)
  | moveConstruct (this rhs : Nat)
  | moveAssign (this rhs : Nat)
  | reset (this : Nat)
  | destroy (this : Nat)
  deriving DecidableEq, Repr

/-- A running program: the world and the addresses of the objects whose
lifetime has begun and not ended. -/
structure Prog (α : Type) where
  world : World α
  live : List Nat

/-- One step of a program over handles with an owner.  A step is refused
(`none`) when it constructs an object where one is alive or uses an object
that is not alive. -/
def Handle.step (op : HandleOp) (s : Prog Handle) : Option (Prog Handle) :=
  match op with
  | .construct this h o t =>
    if this ∈ s.live then none
    else some { world := Handle.ctor this h o t s.world, live := this :: s.live }
  | .constructDefault this =>
    if this ∈ s.live then none
    else some { world := Handle.ctorDefault this s.world, live := this :: s.live }
  | .moveConstruct this rhs =>
    if this ∈ s.live ∨ rhs ∉ s.live then none
    else some { world := Handle.moveCtor this rhs s.world, live := this :: s.live }
  | .moveAssign this rhs =>
    if this ∈ s.live ∧ rhs ∈ s.live then
      some { world := Handle.moveAssign this rhs s.world, live := s.live }
    else none
  | .reset this =>
    if this ∈ s.live then some { world := Handle.reset this s.world, live := s.live }
    else none
  | .destroy this =>
    if this ∈ s.live then
      some { world := Handle.dtor this s.world, live := s.live.erase this }
    else none

/-- Run the operations in order. -/
def Handle.run : List HandleOp → Prog Handle → Option (Prog Handle)
  | [], s => some s
  | op :: ops, s =>
    match Handle.step op s with
    | none => none
    | some s1 => Handle.run ops s1

/-- One step of a program over handles without an owner. -/
def HandleNoOwner.step (op : HandleNoOwnerOp) (s : Prog HandleNoOwner) :
    Option (Prog HandleNoOwner) :=
  match op with
  | .construct this h t =>
    if this ∈ s.live then none
    else some { world := HandleNoOwner.ctor this h t s.world, live := this :: s.live }
  | .constructDefault this =>
    if this ∈ s.live then none
    else some { world := HandleNoOwner.ctorDefault this s.world, live := this :: s.live }
  | .moveConstruct this rhs =>
    if this ∈ s.live ∨ rhs ∉ s.live then none
    else some { world := HandleNoOwner.moveCtor this rhs s.world, live := this :: s.live }
  | .moveAssign this rhs =>
    if this ∈ s.live ∧ rhs ∈ s.live then
      some { world := HandleNoOwner.moveAssign this rhs s.world, live := s.live }
    else none
  | .reset this =>
    if this ∈ s.live then some { world := HandleNoOwner.reset this s.world, live := s.live }
    else none
  | .destroy this =>
    if this ∈ s.live then
      some { world := HandleNoOwner.dtor this s.world, live := s.live.erase this }
    else none

/-- Run the operations in order. -/
def HandleNoOwner.run : List HandleNoOwnerOp → Prog HandleNoOwner → Option (Prog HandleNoOwner)
  | [], s => some s
  | op :: ops, s =>
    match HandleNoOwner.step op s with
    | none => none
    | some s1 => HandleNoOwner.run ops s1

/-- The program state before anything is constructed: no object is alive and
no call is recorded; `m` is the content of the raw memory. -/
def Prog.init {α : Type} (m : Nat → α) : Prog α :=
  { world := { mem := m, log := [] }, live := [] }

/-- One public operation on a collection of `PoolAllocations` objects. -/
inductive PoolOp where
  | construct (this allocations num device pool dld : Nat)
  | constructDefault (this : Nat)
  | moveConstruct (this rhs : Nat)
  | moveAssign (this rhs : Nat)
  | destroy (this : Nat)
  deriving DecidableEq, Repr

/-- A running program over pool batches. -/
structure PoolProg where
  world : PoolWorld
  live : List Nat

/-- The program state before any batch is constructed. -/
def PoolProg.init (m : Nat → PoolAllocations) : PoolProg :=
  { world := { mem := m, log := [] }, live := [] }

/-- One step of a program over pool batches: refused (`none`) on a misuse of
object lifetimes, otherwise the step returns or terminates the process. -/
def PoolAllocations.step (Free : FreeFn) (op : PoolOp) (s : PoolProg) :
    Option (Exec PoolProg) :=
  match op with
  | .construct this a n d p t =>
    if this ∈ s.live then none
    else some (Exec.returns
      { world := PoolAllocations.ctor this a n d p t s.world, live := this :: s.live })
  | .constructDefault this =>
    if this ∈ s.live then none
    else some (Exec.returns
      { world := PoolAllocations.ctorDefault this s.world, live := this :: s.live })
  | .moveConstruct this rhs =>
    if this ∈ s.live ∨ rhs ∉ s.live then none
    else some (Exec.returns
      { world := PoolAllocations.moveCtor this rhs s.world, live := this :: s.live })
  | .moveAssign this rhs =>
    if this ∈ s.live ∧ rhs ∈ s.live then
      match PoolAllocations.moveAssign Free this rhs s.world with
      | Exec.returns w => some (Exec.returns { world := w, live := s.live })
      | Exec.terminates w => some (Exec.terminates { world := w, live := s.live })
    else none
  | .destroy this =>
    if this ∈ s.live then
      match PoolAllocations.dtor Free this s.world with
      | Exec.returns w => some (Exec.returns { world := w, live := s.live.erase this })
      | Exec.terminates w => some (Exec.terminates { world := w, live := s.live })
    else none

/-- Run the operations in order; nothing runs after the process terminated. -/
def PoolAllocations.run (Free : FreeFn) : List PoolOp → PoolProg → Option (Exec PoolProg)
  | [], s => some (Exec.returns s)
  | op :: ops, s =>
    match PoolAllocations.step Free op s with
    | none => none
    | some (Exec.terminates s1) => some (Exec.terminates s1)
    | some (Exec.returns s1) => PoolAllocations.run Free ops s1

/-! ## Predicates on programs -/

/-- The handle value `h` as a list: `[h]` when it is not null, empty when it
is null. -/
def nonNull (h : Nat) : List Nat := if h ≠ nullptr then [h] else []

/-- The handle values, nulls left out, held by the objects at the addresses
`l`, where `f` gives the handle member of the object at an address. -/
def heldOf (f : Nat → Nat) (l : List Nat) : List Nat :=
  (l.filter fun p => f p != nullptr).map f

/-- The handle values passed to `Destroy`, in call order. -/
def destroyedHandles (log : List DestroyCall) : List Nat :=
  log.map DestroyCall.handle

/-- The handle value an operation takes into ownership: the argument of a
constructor call when it is not null. -/
def HandleOp.taken : HandleOp → List Nat
  | .construct _ h _ _ => nonNull h
  | _ => []

/-- The handle values a program takes into ownership, in order. -/
def HandleOp.takenAll : List HandleOp → List Nat
  | [] => []
  | op :: ops => op.taken ++ HandleOp.takenAll ops

/-- True for a move assignment whose source is its own target. -/
def HandleOp.selfAssign : HandleOp → Bool
  | .moveAssign this rhs => this == rhs
  | _ => false

/-- The non-null handle values held by the live objects. -/
def Handle.held (s : Prog Handle) : List Nat :=
  heldOf (fun p => (s.world.mem p).handle) s.live

/-- The accounting invariant: the live addresses are pairwise distinct, and
the handle values held by live objects together with those passed to `Destroy`
are, up to order, the values `T` taken into ownership so far. -/
def Handle.Accounted (s : Prog Handle) (T : List Nat) : Prop :=
  s.live.Nodup ∧ (Handle.held s ++ destroyedHandles s.world.log).Perm T

/-- The handle value an operation takes into ownership: the argument of a
constructor call when it is not null. -/
def HandleNoOwnerOp.taken : HandleNoOwnerOp → List Nat
  | .construct _ h _ => nonNull h
  | _ => []

/-- The handle values a program takes into ownership, in order. -/
def HandleNoOwnerOp.takenAll : List HandleNoOwnerOp → List Nat
  | [] => []
  | op :: ops => op.taken ++ HandleNoOwnerOp.takenAll ops

/-- True for a move assignment whose source is its own target. -/
def HandleNoOwnerOp.selfAssign : HandleNoOwnerOp → Bool
  | .moveAssign this rhs => this == rhs
  | _ => false

/-- The non-null handle values held by the live objects. -/
def HandleNoOwner.held (s : Prog HandleNoOwner) : List Nat :=
  heldOf (fun p => (s.world.mem p).handle) s.live

/-- The accounting invariant: the live addresses are pairwise distinct, and
the handle values held by live objects together with those passed to `Destroy`
are, up to order, the values `T` taken into ownership so far. -/
def HandleNoOwner.Accounted (s : Prog HandleNoOwner) (T : List Nat) : Prop :=
  s.live.Nodup ∧ (HandleNoOwner.held s ++ destroyedHandles s.world.log).Perm T

/-- The out of pool memory state of the batch at `this`: its allocation array
is absent and its device is unset. -/
def PoolAllocations.outOfPoolState (this : Nat) (w : PoolWorld) : Prop :=
  (w.mem this).allocations = nullptr ∧ (w.mem this).device = nullptr

/-- True unless the operation is a constructor call that is given a present
array together with a null device. -/
def PoolOp.deviceGiven : PoolOp → Bool
  | .construct _ a _ d _ _ => a == nullptr || d != nullptr
  | _ => true

/-- Every batch that is alive and holds an array has a device. -/
def PoolProg.arrayHasDevice (s : PoolProg) : Prop :=
  ∀ p ∈ s.live, (s.world.mem p).allocations ≠ nullptr → (s.world.mem p).device ≠ nullptr

/-- An array with its count as a list: `[x]` when the array pointer is not
null, empty when it is null. -/
def nonNullArray (x : Nat × Nat) : List (Nat × Nat) :=
  if x.1 ≠ nullptr then [x] else []

/-- The arrays, each with its count, held by the batches at the addresses
`l`, where `f` gives the array pointer and the count of the batch at an
address; batches without an array are left out. -/
def heldArrays (f : Nat → Nat × Nat) (l : List Nat) : List (Nat × Nat) :=
  (l.filter fun p => (f p).1 != nullptr).map f

/-- The arrays passed to `Free`, each with the count of its span, in call
order. -/
def freedArrays (log : List FreeCall) : List (Nat × Nat) :=
  log.map fun c => (c.span.ptr, c.span.num)

/-- The array pointer of a batch together with its count. -/
def PoolAllocations.array (x : PoolAllocations) : Nat × Nat :=
  (x.allocations, x.num)

/-- The array an operation takes into ownership, with its count: the
arguments of a constructor call whose array is present. -/
def PoolOp.taken : PoolOp → List (Nat × Nat)
  | .construct _ a n _ _ _ => nonNullArray (a, n)
  | _ => []

/-- The arrays a program takes into ownership, in order. -/
def PoolOp.takenAll : List PoolOp → List (Nat × Nat)
  | [] => []
  | op :: ops => op.taken ++ PoolOp.takenAll ops

/-- True for a move assignment whose source is its own target. -/
def PoolOp.selfAssign : PoolOp → Bool
  | .moveAssign this rhs => this == rhs
  | _ => false

/-- The arrays held by the live batches. -/
def PoolProg.held (s : PoolProg) : List (Nat × Nat) :=
  heldArrays (fun p => (s.world.mem p).array) s.live

/-- The accounting invariant of batches: the live addresses are pairwise
distinct, and the arrays held by live batches together with those passed to
`Free` are, up to order, the arrays `T` taken into ownership so far, each with
its count. -/
def PoolProg.Accounted (s : PoolProg) (T : List (Nat × Nat)) : Prop :=
  s.live.Nodup ∧ (s.held ++ freedArrays s.world.log).Perm T

/-! ## Example states -/

/-- A world with no recorded call whose memory holds default-initialised
objects everywhere. -/
def World.init {α : Type} [Inhabited α] : World α :=
  { mem := fun _ => default, log := [] }

/-- A world with one handle at address 1: value 7, owner 3, table 9. -/
def Handle.exampleWorld : World Handle :=
  Handle.ctor 1 7 3 9 World.init

/-- A world with one handle without an owner at address 1: value 7, table 9. -/
def HandleNoOwner.exampleWorld : World HandleNoOwner :=
  HandleNoOwner.ctor 1 7 9 World.init

/-- A world with two handles: the one of `Handle.exampleWorld` at address 1
and a handle at address 2 with value 8, owner 4, table 10. -/
def Handle.exampleWorld2 : World Handle :=
  Handle.ctor 2 8 4 10 Handle.exampleWorld

/-- A world with two handles without an owner: value 7, table 9 at address 1
and value 8, table 10 at address 2. -/
def HandleNoOwner.exampleWorld2 : World HandleNoOwner :=
  HandleNoOwner.ctor 2 8 10 HandleNoOwner.exampleWorld

/-- A world of pool batches with no recorded call whose memory holds
default-initialised batches everywhere. -/
def PoolWorld.init : PoolWorld :=
  { mem := fun _ => default, log := [] }

/-- A `Free` that always reports success. -/
def freeSucceeds : FreeFn :=
  fun _ _ => VK_SUCCESS

/-- A `Free` that always reports the status `-1`. -/
def freeFails : FreeFn :=
  fun _ _ => -1

/-- A world with one batch at address 1: the array at address 100 with 4
allocations, device 6, pool 5, table 9. -/
def PoolAllocations.exampleWorld : PoolWorld :=
  PoolAllocations.ctor 1 100 4 6 5 9 PoolWorld.init

/-- The operations of the example program over pool batches: a batch is
constructed at address 1, an empty one at address 2, and the first is moved
into a new batch at address 3. -/
def PoolAllocations.exampleOps : List PoolOp :=
  [PoolOp.construct 1 100 4 6 5 9, PoolOp.constructDefault 2, PoolOp.moveConstruct 3 1]

/-- The state the example program ends in. -/
def PoolAllocations.exampleProg : PoolProg :=
  { world := PoolAllocations.moveCtor 3 1
      (PoolAllocations.ctorDefault 2 (PoolAllocations.ctor 1 100 4 6 5 9 PoolWorld.init))
    live := [3, 2, 1] }

/-- The operations of the example program over handles: two handles are
constructed, the second is move-assigned to the first, and both are
destroyed. -/
def Handle.exampleOps : List HandleOp :=
  [HandleOp.construct 1 7 3 9, HandleOp.construct 2 8 4 10, HandleOp.moveAssign 1 2,
    HandleOp.destroy 2, HandleOp.destroy 1]

/-- The state the example program over handles ends in. -/
def Handle.exampleEnd : Prog Handle :=
  { world := Handle.dtor 1 (Handle.dtor 2 (Handle.moveAssign 1 2 Handle.exampleWorld2))
    live := [] }

/-- The operations of the example program over handles without an owner. -/
def HandleNoOwner.exampleOps : List HandleNoOwnerOp :=
  [HandleNoOwnerOp.construct 1 7 9, HandleNoOwnerOp.construct 2 8 10,
    HandleNoOwnerOp.moveAssign 1 2, HandleNoOwnerOp.destroy 2, HandleNoOwnerOp.destroy 1]

/-- The state the example program over handles without an owner ends in. -/
def HandleNoOwner.exampleEnd : Prog HandleNoOwner :=
  { world := HandleNoOwner.dtor 1
      (HandleNoOwner.dtor 2 (HandleNoOwner.moveAssign 1 2 HandleNoOwner.exampleWorld2))
    live := [] }

/-- The operations of a second example program over pool batches: two
batches are constructed, the second is move-assigned to the first, and both are
destroyed. -/
def PoolAllocations.exampleOps2 : List PoolOp :=
  [PoolOp.construct 1 100 4 6 5 9, PoolOp.construct 2 200 3 6 5 9, PoolOp.moveAssign 1 2,
    PoolOp.destroy 2, PoolOp.destroy 1]

/-- The state the second example program ends in when `Free` succeeds. -/
def PoolAllocations.exampleEnd2 : PoolProg :=
  { world :=
      (PoolAllocations.dtor freeSucceeds 1
        (PoolAllocations.dtor freeSucceeds 2
          (PoolAllocations.moveAssign freeSucceeds 1 2
            (PoolAllocations.ctor 2 200 3 6 5 9 PoolAllocations.exampleWorld)).state).state).state
    live := [] }

/-! # Theorems -/

/-! ## Memory lemmas -/

/-- Reading the address just written gives the value written. -/
@[simp] theorem write_same {α : Type} (m : Nat → α) (p : Nat) (v : α) : write m p v p = v := by
  simp [write]

/-- Reading another address is not affected by the write. -/
@[simp] theorem write_other {α : Type} (m : Nat → α) (p q : Nat) (v : α) (h : q ≠ p) :
    write m p v q = m q := by
  simp [write, h]

/-! ## Held handle values -/

/-- The held values of a list of addresses, one address at a time. -/
theorem heldOf_cons (f : Nat → Nat) (p : Nat) (l : List Nat) :
    heldOf f (p :: l) = nonNull (f p) ++ heldOf f l := by
  by_cases h : f p = nullptr <;> simp [heldOf, nonNull, List.filter_cons, h]

/-- The held values do not depend on the order of the addresses, up to order. -/
theorem heldOf_perm (f : Nat → Nat) {l l1 : List Nat} (h : l.Perm l1) :
    (heldOf f l).Perm (heldOf f l1) :=
  (h.filter _).map _

/-- The held values depend only on the handle members at the given addresses. -/
theorem heldOf_congr (f g : Nat → Nat) (l : List Nat) (h : ∀ p ∈ l, f p = g p) :
    heldOf f l = heldOf g l := by
  induction l with
  | nil => rfl
  | cons a l ih =>
    rw [heldOf_cons, heldOf_cons, h a (List.mem_cons_self _ _),
      ih (fun p hp => h p (List.mem_cons_of_mem _ hp))]

/-- The held values split into the value at one address and those at the others. -/
theorem heldOf_erase (f : Nat → Nat) (l : List Nat) (this : Nat) (h : this ∈ l) :
    (heldOf f l).Perm (nonNull (f this) ++ heldOf f (l.erase this)) := by
  have := heldOf_perm f (List.perm_cons_erase h)
  rwa [heldOf_cons] at this

/-- A write at an address outside the list does not change the held values. -/
theorem heldOf_update_new (f : Nat → Nat) (l : List Nat) (this v : Nat) (h : this ∉ l) :
    heldOf (fun q => if q = this then v else f q) l = heldOf f l := by
  apply heldOf_congr
  intro p hp
  have : p ≠ this := fun e => h (e ▸ hp)
  simp [this]

/-- A write at one of the addresses replaces the value held there. -/
theorem heldOf_update (f : Nat → Nat) (l : List Nat) (this v : Nat) (h : this ∈ l)
    (hnd : l.Nodup) :
    (heldOf (fun q => if q = this then v else f q) l).Perm
      (nonNull v ++ heldOf f (l.erase this)) := by
  have h1 := heldOf_erase (fun q => if q = this then v else f q) l this h
  have h2 : heldOf (fun q => if q = this then v else f q) (l.erase this)
      = heldOf f (l.erase this) :=
    heldOf_update_new f (l.erase this) this v
      (fun hm => (List.Nodup.mem_erase_iff hnd).1 hm |>.1 rfl)
  simpa [h2] using h1

/-- The null handle contributes no value. -/
theorem nonNull_nullptr : nonNull nullptr = [] := by simp [nonNull]

/-- When the held values are pairwise distinct, two objects holding the same
non-null value are the same object. -/
theorem heldOf_injOn (f : Nat → Nat) (l : List Nat) (hnd : (heldOf f l).Nodup) (p q : Nat)
    (hp : p ∈ l) (hq : q ∈ l) (he : f p = f q) (hn : f p ≠ nullptr) : p = q := by
  have hp2 : p ∈ l.filter fun r => f r != nullptr := by
    simp [List.mem_filter, hp, hn]
  have hq2 : q ∈ l.filter fun r => f r != nullptr := by
    have : f q ≠ nullptr := he ▸ hn
    simp [List.mem_filter, hq, this]
  exact List.inj_on_of_nodup_map hnd hp2 hq2 he

/-! ## Result model -/

/-- C1: for every status `r`, `Check r` raises an exception, and the exception
carries `r`, if and only if `r` is not `VK_SUCCESS`; it returns normally if
and only if `r` is `VK_SUCCESS`. -/
theorem Check_raises_iff_not_success (r : VkResult) :
    ((∃ e, Check r = Except.error e) ↔ r ≠ VK_SUCCESS) ∧
    (Check r = Except.error (Exception.mk r) ↔ r ≠ VK_SUCCESS) ∧
    (Check r = Except.ok () ↔ r = VK_SUCCESS) := by
  by_cases h : r = VK_SUCCESS
  · simp [Check, h, pure, Except.pure]
  · simp [Check, h, throw, throwThe, MonadExceptOf.throw]

/-- C2: for every status `r`, `Filter r` raises an exception, and the
exception carries `r`, if and only if `r < 0`; it returns exactly `r` if and
only if `0 ≤ r`, so success and every positive informational code pass
through unchanged. -/
theorem Filter_raises_iff_negative (r : VkResult) :
    ((∃ e, Filter r = Except.error e) ↔ r < 0) ∧
    (Filter r = Except.error (Exception.mk r) ↔ r < 0) ∧
    (Filter r = Except.ok r ↔ 0 ≤ r) := by
  by_cases h : r < 0
  · simp [Filter, h, throw, throwThe, MonadExceptOf.throw]
  · have h0 : 0 ≤ r := not_lt.mp h
    simp [Filter, h, h0, pure, Except.pure]

/-! ## Owning handle -/

/-- C3: a handle constructed with a non-null handle value `h` (with owner `o`
and table `t`, or with table `t` alone for the variant without an owner) and
then destroyed, with no move or reset in between, adds exactly one call to the
recorded `Destroy` calls, with the arguments `(o, h, t)`, respectively
`(h, t)`. -/
theorem Handle_destroy_dispatches_once (this h o t : Nat) (w : World Handle)
    (v : World HandleNoOwner) (hh : h ≠ nullptr) :
    (Handle.dtor this (Handle.ctor this h o t w)).log
        = w.log ++ [DestroyCall.owned o h t] ∧
    (HandleNoOwner.dtor this (HandleNoOwner.ctor this h t v)).log
        = v.log ++ [DestroyCall.ownerless h t] := by
  constructor
  · simp [Handle.dtor, Handle.Release, Handle.ctor, Handle.Destroy, hh]
  · simp [HandleNoOwner.dtor, HandleNoOwner.Release, HandleNoOwner.ctor,
      HandleNoOwner.Destroy, hh]

/-- Witness of C3: the handle value 7 with owner 3 and table 9, in a world
with no recorded call. -/
theorem Handle_destroy_dispatches_once_witness :
    (7 : Nat) ≠ nullptr ∧
    ((Handle.dtor 1 (Handle.ctor 1 7 3 9 { mem := fun _ => default, log := [] })).log
        = [] ++ [DestroyCall.owned 3 7 9] ∧
     (HandleNoOwner.dtor 1
        (HandleNoOwner.ctor 1 7 9 { mem := fun _ => default, log := [] })).log
        = [] ++ [DestroyCall.ownerless 7 9]) :=
  ⟨by decide,
   Handle_destroy_dispatches_once 1 7 3 9 { mem := fun _ => default, log := [] }
     { mem := fun _ => default, log := [] } (by decide)⟩

/-- C4: when `a` holds the handle `h` with owner `o` and table `t`,
move-constructing `b` from `a` leaves `a` with boolean state false, gives `b`
the handle `h` with the owner `o` and the table `t`, records no `Destroy`
call, and destroying the moved-from `a` afterwards records none either; the
same holds for the variant without an owner. -/
theorem Handle_move_construct_transfers (a b h o t : Nat) (w : World Handle)
    (v : World HandleNoOwner) (hab : b ≠ a)
    (hw : w.mem a = { handle := h, owner := o, dld := t })
    (hv : v.mem a = { handle := h, dld := t }) :
    (Handle.toBool a (Handle.moveCtor b a w) = false ∧
     (Handle.moveCtor b a w).mem b = { handle := h, owner := o, dld := t } ∧
     (Handle.moveCtor b a w).log = w.log ∧
     (Handle.dtor a (Handle.moveCtor b a w)).log = w.log) ∧
    (HandleNoOwner.toBool a (HandleNoOwner.moveCtor b a v) = false ∧
     (HandleNoOwner.moveCtor b a v).mem b = { handle := h, dld := t } ∧
     (HandleNoOwner.moveCtor b a v).log = v.log ∧
     (HandleNoOwner.dtor a (HandleNoOwner.moveCtor b a v)).log = v.log) := by
  have hab2 : a ≠ b := fun e => hab e.symm
  constructor
  · simp [Handle.toBool, Handle.moveCtor, Handle.dtor, Handle.Release, Handle.setHandle,
      Handle.setOwner, Handle.setDld, write, hab, hab2, hw]
  · simp [HandleNoOwner.toBool, HandleNoOwner.moveCtor, HandleNoOwner.dtor,
      HandleNoOwner.Release, HandleNoOwner.setHandle, HandleNoOwner.setDld, write, hab, hab2,
      hv]

/-- Witness of C4: the handle of the example world, at address 1, moved into a
new object at address 2. -/
theorem Handle_move_construct_transfers_witness :
    (2 : Nat) ≠ 1 ∧
    (Handle.toBool 1 (Handle.moveCtor 2 1 Handle.exampleWorld) = false ∧
     (Handle.moveCtor 2 1 Handle.exampleWorld).mem 2 = { handle := 7, owner := 3, dld := 9 } ∧
     (Handle.moveCtor 2 1 Handle.exampleWorld).log = Handle.exampleWorld.log ∧
     (Handle.dtor 1 (Handle.moveCtor 2 1 Handle.exampleWorld)).log
        = Handle.exampleWorld.log) ∧
    (HandleNoOwner.toBool 1 (HandleNoOwner.moveCtor 2 1 HandleNoOwner.exampleWorld) = false ∧
     (HandleNoOwner.moveCtor 2 1 HandleNoOwner.exampleWorld).mem 2
        = { handle := 7, dld := 9 } ∧
     (HandleNoOwner.moveCtor 2 1 HandleNoOwner.exampleWorld).log
        = HandleNoOwner.exampleWorld.log ∧
     (HandleNoOwner.dtor 1 (HandleNoOwner.moveCtor 2 1 HandleNoOwner.exampleWorld)).log
        = HandleNoOwner.exampleWorld.log) :=
  ⟨by decide,
   Handle_move_construct_transfers 1 2 7 3 9 Handle.exampleWorld HandleNoOwner.exampleWorld
     (by decide) rfl rfl⟩

/-- C6: `reset()` records exactly one `Destroy` call, for the held handle,
when the handle is not null and none when it is null; afterwards the handle is
null and the boolean state is false.  A second `reset()` changes nothing, and
neither a second `reset()` nor the destructor after a `reset()` records a
further call.  The same holds for the variant without an owner. -/
theorem Handle_reset_destroys_once (this : Nat) (w : World Handle)
    (v : World HandleNoOwner) :
    ((Handle.reset this w).log
        = w.log ++ (if (w.mem this).handle ≠ nullptr then
            [DestroyCall.owned (w.mem this).owner (w.mem this).handle (w.mem this).dld]
          else []) ∧
     Handle.deref this (Handle.reset this w) = nullptr ∧
     Handle.toBool this (Handle.reset this w) = false ∧
     Handle.reset this (Handle.reset this w) = Handle.reset this w ∧
     (Handle.dtor this (Handle.reset this w)).log = (Handle.reset this w).log) ∧
    ((HandleNoOwner.reset this v).log
        = v.log ++ (if (v.mem this).handle ≠ nullptr then
            [DestroyCall.ownerless (v.mem this).handle (v.mem this).dld]
          else []) ∧
     HandleNoOwner.deref this (HandleNoOwner.reset this v) = nullptr ∧
     HandleNoOwner.toBool this (HandleNoOwner.reset this v) = false ∧
     HandleNoOwner.reset this (HandleNoOwner.reset this v) = HandleNoOwner.reset this v ∧
     (HandleNoOwner.dtor this (HandleNoOwner.reset this v)).log
        = (HandleNoOwner.reset this v).log) := by
  constructor
  · refine ⟨?_, ?_, ?_, ?_, ?_⟩
    · by_cases h : (w.mem this).handle = nullptr <;>
        simp [Handle.reset, Handle.Release, Handle.setHandle, Handle.Destroy, h]
    · simp [Handle.deref, Handle.reset, Handle.setHandle]
    · simp [Handle.toBool, Handle.reset, Handle.setHandle]
    · have hm : ∀ m : Nat → Handle, ∀ x : Handle,
          write (write m this x) this { x with handle := nullptr }
            = write m this { x with handle := nullptr } := by
        intro m x; funext q; by_cases hq : q = this <;> simp [write, hq]
      by_cases h : (w.mem this).handle = nullptr <;>
        simp [Handle.reset, Handle.Release, Handle.setHandle, Handle.Destroy, h, hm]
    · simp [Handle.dtor, Handle.reset, Handle.Release, Handle.setHandle]
  · refine ⟨?_, ?_, ?_, ?_, ?_⟩
    · by_cases h : (v.mem this).handle = nullptr <;>
        simp [HandleNoOwner.reset, HandleNoOwner.Release, HandleNoOwner.setHandle,
          HandleNoOwner.Destroy, h]
    · simp [HandleNoOwner.deref, HandleNoOwner.reset, HandleNoOwner.setHandle]
    · simp [HandleNoOwner.toBool, HandleNoOwner.reset, HandleNoOwner.setHandle]
    · have hm : ∀ m : Nat → HandleNoOwner, ∀ x : HandleNoOwner,
          write (write m this x) this { x with handle := nullptr }
            = write m this { x with handle := nullptr } := by
        intro m x; funext q; by_cases hq : q = this <;> simp [write, hq]
      by_cases h : (v.mem this).handle = nullptr <;>
        simp [HandleNoOwner.reset, HandleNoOwner.Release, HandleNoOwner.setHandle,
          HandleNoOwner.Destroy, h, hm]
    · simp [HandleNoOwner.dtor, HandleNoOwner.reset, HandleNoOwner.Release,
        HandleNoOwner.setHandle]

/-- C7: for two distinct objects, `a` holding `x` with owner `ox` and table
`tx` and `b` holding `y` with `oy` and `ty`, the move assignment
`a = std::move(b)` records exactly one `Destroy` call, `(ox, x, tx)`, when `x`
is not null and none when `x` is null; afterwards `a` holds `y` with `oy` and
`ty`, and `b` holds the null handle.  The same holds for the variant without
an owner. -/
theorem Handle_move_assign_releases_target (a b x ox tx y oy ty : Nat) (w : World Handle)
    (v : World HandleNoOwner) (hab : a ≠ b)
    (hwa : w.mem a = { handle := x, owner := ox, dld := tx })
    (hwb : w.mem b = { handle := y, owner := oy, dld := ty })
    (hva : v.mem a = { handle := x, dld := tx })
    (hvb : v.mem b = { handle := y, dld := ty }) :
    ((Handle.moveAssign a b w).log
        = w.log ++ (if x ≠ nullptr then [DestroyCall.owned ox x tx] else []) ∧
     (Handle.moveAssign a b w).mem a = { handle := y, owner := oy, dld := ty } ∧
     Handle.deref b (Handle.moveAssign a b w) = nullptr) ∧
    ((HandleNoOwner.moveAssign a b v).log
        = v.log ++ (if x ≠ nullptr then [DestroyCall.ownerless x tx] else []) ∧
     (HandleNoOwner.moveAssign a b v).mem a = { handle := y, dld := ty } ∧
     HandleNoOwner.deref b (HandleNoOwner.moveAssign a b v) = nullptr) := by
  have hba : b ≠ a := fun e => hab e.symm
  constructor
  · by_cases h : x = nullptr <;>
      simp [Handle.moveAssign, Handle.deref, Handle.Release, Handle.Destroy, Handle.setHandle,
        Handle.setOwner, Handle.setDld, write, hab, hba, hwa, hwb, h]
  · by_cases h : x = nullptr <;>
      simp [HandleNoOwner.moveAssign, HandleNoOwner.deref, HandleNoOwner.Release,
        HandleNoOwner.Destroy, HandleNoOwner.setHandle, HandleNoOwner.setDld, write, hab, hba,
        hva, hvb, h]

/-- Witness of C7: in the example world with two handles, the handle at address
2 is move-assigned to the handle at address 1. -/
theorem Handle_move_assign_releases_target_witness :
    (1 : Nat) ≠ 2 ∧
    ((Handle.moveAssign 1 2 Handle.exampleWorld2).log
        = Handle.exampleWorld2.log ++
            (if (7 : Nat) ≠ nullptr then [DestroyCall.owned 3 7 9] else []) ∧
     (Handle.moveAssign 1 2 Handle.exampleWorld2).mem 1
        = { handle := 8, owner := 4, dld := 10 } ∧
     Handle.deref 2 (Handle.moveAssign 1 2 Handle.exampleWorld2) = nullptr) ∧
    ((HandleNoOwner.moveAssign 1 2 HandleNoOwner.exampleWorld2).log
        = HandleNoOwner.exampleWorld2.log ++
            (if (7 : Nat) ≠ nullptr then [DestroyCall.ownerless 7 9] else []) ∧
     (HandleNoOwner.moveAssign 1 2 HandleNoOwner.exampleWorld2).mem 1
        = { handle := 8, dld := 10 } ∧
     HandleNoOwner.deref 2 (HandleNoOwner.moveAssign 1 2 HandleNoOwner.exampleWorld2)
        = nullptr) :=
  ⟨by decide,
   Handle_move_assign_releases_target 1 2 7 3 9 8 4 10 Handle.exampleWorld2
     HandleNoOwner.exampleWorld2 (by decide) rfl rfl rfl rfl⟩

/-- C5, the failing run: a handle is constructed with the fresh value 7,
move-assigned from itself and destroyed.  After the self-assignment one
`Destroy` call is recorded for 7 and the object still holds 7; the destructor
then records a second `Destroy` call for 7, and the run ends with every object
destroyed.  The same happens in the variant without an owner. -/
theorem Handle_self_move_assign_destroys_twice :
    ((Handle.run [HandleOp.construct 1 7 3 9, HandleOp.moveAssign 1 1]
        (Prog.init fun _ => default)).map
          (fun s => (Handle.deref 1 s.world, s.world.log, s.live))
        = some (7, [DestroyCall.owned 3 7 9], [1]) ∧
     (Handle.run [HandleOp.construct 1 7 3 9, HandleOp.moveAssign 1 1, HandleOp.destroy 1]
        (Prog.init fun _ => default)).map (fun s => (s.world.log, s.live))
        = some ([DestroyCall.owned 3 7 9, DestroyCall.owned 3 7 9], [])) ∧
    ((HandleNoOwner.run [HandleNoOwnerOp.construct 1 7 9, HandleNoOwnerOp.moveAssign 1 1]
        (Prog.init fun _ => default)).map
          (fun s => (HandleNoOwner.deref 1 s.world, s.world.log, s.live))
        = some (7, [DestroyCall.ownerless 7 9], [1]) ∧
     (HandleNoOwner.run
        [HandleNoOwnerOp.construct 1 7 9, HandleNoOwnerOp.moveAssign 1 1,
          HandleNoOwnerOp.destroy 1]
        (Prog.init fun _ => default)).map (fun s => (s.world.log, s.live))
        = some ([DestroyCall.ownerless 7 9, DestroyCall.ownerless 7 9], [])) := by
  refine ⟨⟨?_, ?_⟩, ⟨?_, ?_⟩⟩ <;> decide

/-! ## Single ownership, handle with an owner -/

/-- The handle members after a constructor call. -/
theorem Handle_ctor_handle (this h o t : Nat) (w : World Handle) :
    (fun q => ((Handle.ctor this h o t w).mem q).handle)
      = fun q => if q = this then h else (w.mem q).handle := by
  funext q; by_cases hq : q = this <;> simp [Handle.ctor, write, hq]

/-- The handle members after a default constructor call. -/
theorem Handle_ctorDefault_handle (this : Nat) (w : World Handle) :
    (fun q => ((Handle.ctorDefault this w).mem q).handle)
      = fun q => if q = this then nullptr else (w.mem q).handle := by
  funext q; by_cases hq : q = this <;> simp [Handle.ctorDefault, write, hq]

/-- The handle members after the member-wise transfer: the target holds what
the source held and, unless it is the target, the source holds null. -/
theorem Handle_moveCtor_handle (this rhs : Nat) (w : World Handle) :
    (fun q => ((Handle.moveCtor this rhs w).mem q).handle)
      = fun q => if q = this then (w.mem rhs).handle
          else (fun r => if r = rhs then nullptr else (w.mem r).handle) q := by
  funext q
  by_cases hq : q = this
  · subst hq
    by_cases hr : q = rhs <;>
      simp [Handle.moveCtor, Handle.setHandle, Handle.setOwner, Handle.setDld, write, hr]
  · have hq2 : this ≠ q := fun e => hq e.symm
    by_cases hr : q = rhs
    · subst hr
      simp [Handle.moveCtor, Handle.setHandle, Handle.setOwner, Handle.setDld, write, hq, hq2]
    · simp [Handle.moveCtor, Handle.setHandle, Handle.setOwner, Handle.setDld, write, hr, hq]

/-- The member-wise transfer records no call. -/
theorem Handle_moveCtor_log (this rhs : Nat) (w : World Handle) :
    (Handle.moveCtor this rhs w).log = w.log := rfl

/-- The release step leaves the objects as they are. -/
theorem Handle_Release_mem (this : Nat) (w : World Handle) :
    (Handle.Release this w).mem = w.mem := by
  by_cases h : (w.mem this).handle = nullptr <;> simp [Handle.Release, Handle.Destroy, h]

/-- The release step passes the held handle to `Destroy` when it is not null. -/
theorem Handle_Release_destroyed (this : Nat) (w : World Handle) :
    destroyedHandles (Handle.Release this w).log
      = destroyedHandles w.log ++ nonNull (w.mem this).handle := by
  by_cases h : (w.mem this).handle = nullptr <;>
    simp [Handle.Release, Handle.Destroy, destroyedHandles, nonNull, DestroyCall.handle, h]

/-- The move assignment is the release step followed by the member-wise
transfer of the move constructor. -/
theorem Handle_moveAssign_eq (this rhs : Nat) (w : World Handle) :
    Handle.moveAssign this rhs w = Handle.moveCtor this rhs (Handle.Release this w) := rfl

/-- The handle members after `reset()`. -/
theorem Handle_reset_handle (this : Nat) (w : World Handle) :
    (fun q => ((Handle.reset this w).mem q).handle)
      = fun q => if q = this then nullptr else (w.mem q).handle := by
  funext q
  by_cases hq : q = this <;>
    simp [Handle.reset, Handle.setHandle, Handle_Release_mem, write, hq]

/-- The calls recorded by `reset()` are those of its release step. -/
theorem Handle_reset_log (this : Nat) (w : World Handle) :
    (Handle.reset this w).log = (Handle.Release this w).log := rfl

/-- Every step other than a move assignment of an object to itself keeps the
accounting invariant. -/
theorem Handle_step_accounted (op : HandleOp) (s s1 : Prog Handle) (T : List Nat)
    (hself : op.selfAssign = false) (hstep : Handle.step op s = some s1)
    (hacc : Handle.Accounted s T) : Handle.Accounted s1 (T ++ op.taken) := by
  obtain ⟨hnd, hperm⟩ := hacc
  cases op with
  | construct this h o t =>
    by_cases hl : this ∈ s.live
    · simp [Handle.step, hl] at hstep
    · simp [Handle.step, hl] at hstep
      subst hstep
      refine ⟨List.nodup_cons.2 ⟨hl, hnd⟩, ?_⟩
      simp only [Handle.held, Handle_ctor_handle, heldOf_cons, if_true,
        heldOf_update_new _ _ _ _ hl, HandleOp.taken]
      rw [List.perm_iff_count] at hperm ⊢
      intro a
      have := hperm a
      simp only [Handle.held, List.count_append, Handle.ctor] at this ⊢
      omega
  | constructDefault this =>
    by_cases hl : this ∈ s.live
    · simp [Handle.step, hl] at hstep
    · simp [Handle.step, hl] at hstep
      subst hstep
      refine ⟨List.nodup_cons.2 ⟨hl, hnd⟩, ?_⟩
      simp only [Handle.held, Handle_ctorDefault_handle, heldOf_cons, if_true,
        heldOf_update_new _ _ _ _ hl, HandleOp.taken, nonNull_nullptr]
      simpa [Handle.held, Handle.ctorDefault] using hperm
  | moveConstruct this rhs =>
    by_cases hl : this ∈ s.live ∨ rhs ∉ s.live
    · simp [Handle.step, hl] at hstep
    · simp [Handle.step, hl] at hstep
      subst hstep
      have hl1 : this ∉ s.live := fun h => hl (Or.inl h)
      have hl2 : rhs ∈ s.live := by
        by_contra h
        exact hl (Or.inr h)
      refine ⟨List.nodup_cons.2 ⟨hl1, hnd⟩, ?_⟩
      have h1 := heldOf_update (fun q => (s.world.mem q).handle) s.live rhs nullptr hl2 hnd
      have h2 := heldOf_erase (fun q => (s.world.mem q).handle) s.live rhs hl2
      simp only [Handle.held, Handle_moveCtor_handle, heldOf_cons, if_true,
        heldOf_update_new _ _ _ _ hl1, HandleOp.taken, Handle_moveCtor_log]
      rw [List.perm_iff_count] at hperm h1 h2 ⊢
      intro a
      have e0 := hperm a
      have e1 := h1 a
      have e2 := h2 a
      simp only [Handle.held, List.count_append, nonNull_nullptr, List.count_nil] at e0 e1 e2 ⊢
      omega
  | moveAssign this rhs =>
    by_cases hl : this ∈ s.live ∧ rhs ∈ s.live
    · simp [Handle.step, hl] at hstep
      subst hstep
      have hne : this ≠ rhs := by simpa [HandleOp.selfAssign] using hself
      have hne2 : rhs ≠ this := fun e => hne e.symm
      refine ⟨hnd, ?_⟩
      have hl3 : rhs ∈ s.live.erase this := (List.mem_erase_of_ne hne2).2 hl.2
      have g1 := heldOf_update
        (fun r => if r = rhs then nullptr else (s.world.mem r).handle) s.live this
        (s.world.mem rhs).handle hl.1 hnd
      have g2 := heldOf_update (fun q => (s.world.mem q).handle) (s.live.erase this) rhs nullptr
        hl3 (hnd.erase this)
      have g3 := heldOf_erase (fun q => (s.world.mem q).handle) s.live this hl.1
      have g4 := heldOf_erase (fun q => (s.world.mem q).handle) (s.live.erase this) rhs hl3
      simp only [Handle.held, Handle_moveAssign_eq, Handle_moveCtor_handle, Handle_moveCtor_log,
        Handle_Release_mem, Handle_Release_destroyed, HandleOp.taken]
      rw [List.perm_iff_count] at hperm g1 g2 g3 g4 ⊢
      intro a
      have e0 := hperm a
      have e1 := g1 a
      have e2 := g2 a
      have e3 := g3 a
      have e4 := g4 a
      simp only [Handle.held, List.count_append, nonNull_nullptr, List.count_nil]
        at e0 e1 e2 e3 e4 ⊢
      omega
    · simp [Handle.step, hl] at hstep
  | reset this =>
    by_cases hl : this ∈ s.live
    · simp [Handle.step, hl] at hstep
      subst hstep
      refine ⟨hnd, ?_⟩
      have g1 := heldOf_update (fun q => (s.world.mem q).handle) s.live this nullptr hl hnd
      have g3 := heldOf_erase (fun q => (s.world.mem q).handle) s.live this hl
      simp only [Handle.held, Handle_reset_handle, Handle_reset_log, Handle_Release_destroyed,
        HandleOp.taken]
      rw [List.perm_iff_count] at hperm g1 g3 ⊢
      intro a
      have e0 := hperm a
      have e1 := g1 a
      have e3 := g3 a
      simp only [Handle.held, List.count_append, nonNull_nullptr, List.count_nil]
        at e0 e1 e3 ⊢
      omega
    · simp [Handle.step, hl] at hstep
  | destroy this =>
    by_cases hl : this ∈ s.live
    · simp [Handle.step, hl] at hstep
      subst hstep
      refine ⟨hnd.erase this, ?_⟩
      have g3 := heldOf_erase (fun q => (s.world.mem q).handle) s.live this hl
      simp only [Handle.held, Handle.dtor, Handle_Release_mem, Handle_Release_destroyed,
        HandleOp.taken]
      rw [List.perm_iff_count] at hperm g3 ⊢
      intro a
      have e0 := hperm a
      have e3 := g3 a
      simp only [Handle.held, List.count_append, nonNull_nullptr, List.count_nil]
        at e0 e3 ⊢
      omega
    · simp [Handle.step, hl] at hstep

/-- A run without a move assignment of an object to itself keeps the
accounting invariant. -/
theorem Handle_run_accounted (ops : List HandleOp) :
    ∀ (s s1 : Prog Handle) (T : List Nat), (∀ op ∈ ops, HandleOp.selfAssign op = false) →
      Handle.run ops s = some s1 → Handle.Accounted s T →
      Handle.Accounted s1 (T ++ HandleOp.takenAll ops) := by
  induction ops with
  | nil =>
    intro s s1 T _ hrun hacc
    simp [Handle.run] at hrun
    subst hrun
    simpa [HandleOp.takenAll] using hacc
  | cons op ops ih =>
    intro s s1 T hself hrun hacc
    cases hstep : Handle.step op s with
    | none => simp [Handle.run, hstep] at hrun
    | some s2 =>
      simp only [Handle.run, hstep] at hrun
      have h2 := Handle_step_accounted op s s2 T (hself op (List.mem_cons_self _ _)) hstep hacc
      have h3 := ih s2 s1 (T ++ op.taken) (fun o ho => hself o (List.mem_cons_of_mem _ ho))
        hrun h2
      simpa [HandleOp.takenAll, List.append_assoc] using h3

/-- Single ownership away from self-assignment: in a run from the initial
state in which the constructors take pairwise distinct non-null handle values
and no object is move-assigned to itself, at every point a non-null handle
value is held by at most one live object, no value is passed to `Destroy`
twice, no held value has been passed to `Destroy`, and once every object is
destroyed each value taken into ownership has been passed to `Destroy` exactly
once. -/
theorem Handle_single_owner_without_self_assign (ops : List HandleOp) (m : Nat → Handle)
    (s : Prog Handle) (hself : ∀ op ∈ ops, HandleOp.selfAssign op = false)
    (hfresh : (HandleOp.takenAll ops).Nodup)
    (hrun : Handle.run ops (Prog.init m) = some s) :
    (∀ p ∈ s.live, ∀ q ∈ s.live, (s.world.mem p).handle = (s.world.mem q).handle →
      (s.world.mem p).handle ≠ nullptr → p = q) ∧
    (∀ h, (destroyedHandles s.world.log).count h ≤ 1) ∧
    (∀ h ∈ Handle.held s, h ∉ destroyedHandles s.world.log) ∧
    (s.live = [] →
      ∀ h ∈ HandleOp.takenAll ops, (destroyedHandles s.world.log).count h = 1) := by
  have hacc := Handle_run_accounted ops (Prog.init m) s [] hself hrun
    ⟨by simp [Prog.init], by simp [Prog.init, Handle.held, heldOf, destroyedHandles]⟩
  simp only [List.nil_append] at hacc
  obtain ⟨_, hperm⟩ := hacc
  have hnd : (Handle.held s ++ destroyedHandles s.world.log).Nodup :=
    hperm.nodup_iff.2 hfresh
  have hnd2 := List.nodup_append.1 hnd
  refine ⟨?_, ?_, ?_, ?_⟩
  · intro p hp q hq he hn
    exact heldOf_injOn (fun r => (s.world.mem r).handle) s.live hnd2.1 p q hp hq he hn
  · intro h
    exact List.nodup_iff_count_le_one.1 hnd2.2.1 h
  · intro h hh hd
    exact hnd2.2.2 hh hd
  · intro hlive h hh
    have hc := hperm.count_eq h
    simp only [Handle.held, hlive, heldOf, List.filter_nil, List.map_nil, List.nil_append] at hc
    rw [hc]
    exact List.count_eq_one_of_mem hfresh hh

/-- The example program satisfies the conditions of single ownership and ends
with both handle values passed to `Destroy` exactly once each. -/
theorem Handle_single_owner_example :
    (∀ op ∈ Handle.exampleOps, HandleOp.selfAssign op = false) ∧
    (HandleOp.takenAll Handle.exampleOps).Nodup ∧
    Handle.run Handle.exampleOps (Prog.init fun _ => default) = some Handle.exampleEnd ∧
    destroyedHandles Handle.exampleEnd.world.log = [7, 8] ∧
    (Handle.exampleEnd.live = [] → ∀ h ∈ HandleOp.takenAll Handle.exampleOps,
      (destroyedHandles Handle.exampleEnd.world.log).count h = 1) :=
  ⟨by decide, by decide, rfl, by decide,
   (Handle_single_owner_without_self_assign Handle.exampleOps (fun _ => default)
      Handle.exampleEnd (by decide) (by decide) rfl).2.2.2⟩

/-! ## Single ownership, handle without an owner -/

/-- The handle members after a constructor call. -/
theorem HandleNoOwner_ctor_handle (this h t : Nat) (w : World HandleNoOwner) :
    (fun q => ((HandleNoOwner.ctor this h t w).mem q).handle)
      = fun q => if q = this then h else (w.mem q).handle := by
  funext q; by_cases hq : q = this <;> simp [HandleNoOwner.ctor, write, hq]

/-- The handle members after a default constructor call. -/
theorem HandleNoOwner_ctorDefault_handle (this : Nat) (w : World HandleNoOwner) :
    (fun q => ((HandleNoOwner.ctorDefault this w).mem q).handle)
      = fun q => if q = this then nullptr else (w.mem q).handle := by
  funext q; by_cases hq : q = this <;> simp [HandleNoOwner.ctorDefault, write, hq]

/-- The handle members after the member-wise transfer: the target holds what
the source held and, unless it is the target, the source holds null. -/
theorem HandleNoOwner_moveCtor_handle (this rhs : Nat) (w : World HandleNoOwner) :
    (fun q => ((HandleNoOwner.moveCtor this rhs w).mem q).handle)
      = fun q => if q = this then (w.mem rhs).handle
          else (fun r => if r = rhs then nullptr else (w.mem r).handle) q := by
  funext q
  by_cases hq : q = this
  · subst hq
    by_cases hr : q = rhs <;>
      simp [HandleNoOwner.moveCtor, HandleNoOwner.setHandle, HandleNoOwner.setDld, write, hr]
  · have hq2 : this ≠ q := fun e => hq e.symm
    by_cases hr : q = rhs
    · subst hr
      simp [HandleNoOwner.moveCtor, HandleNoOwner.setHandle, HandleNoOwner.setDld, write, hq, hq2]
    · simp [HandleNoOwner.moveCtor, HandleNoOwner.setHandle, HandleNoOwner.setDld, write, hr, hq]

/-- The member-wise transfer records no call. -/
theorem HandleNoOwner_moveCtor_log (this rhs : Nat) (w : World HandleNoOwner) :
    (HandleNoOwner.moveCtor this rhs w).log = w.log := rfl

/-- The release step leaves the objects as they are. -/
theorem HandleNoOwner_Release_mem (this : Nat) (w : World HandleNoOwner) :
    (HandleNoOwner.Release this w).mem = w.mem := by
  by_cases h : (w.mem this).handle = nullptr <;>
    simp [HandleNoOwner.Release, HandleNoOwner.Destroy, h]

/-- The release step passes the held handle to `Destroy` when it is not null. -/
theorem HandleNoOwner_Release_destroyed (this : Nat) (w : World HandleNoOwner) :
    destroyedHandles (HandleNoOwner.Release this w).log
      = destroyedHandles w.log ++ nonNull (w.mem this).handle := by
  by_cases h : (w.mem this).handle = nullptr <;>
    simp [HandleNoOwner.Release, HandleNoOwner.Destroy, destroyedHandles, nonNull,
      DestroyCall.handle, h]

/-- The move assignment is the release step followed by the member-wise
transfer of the move constructor. -/
theorem HandleNoOwner_moveAssign_eq (this rhs : Nat) (w : World HandleNoOwner) :
    HandleNoOwner.moveAssign this rhs w
      = HandleNoOwner.moveCtor this rhs (HandleNoOwner.Release this w) := rfl

/-- The handle members after `reset()`. -/
theorem HandleNoOwner_reset_handle (this : Nat) (w : World HandleNoOwner) :
    (fun q => ((HandleNoOwner.reset this w).mem q).handle)
      = fun q => if q = this then nullptr else (w.mem q).handle := by
  funext q
  by_cases hq : q = this <;>
    simp [HandleNoOwner.reset, HandleNoOwner.setHandle, HandleNoOwner_Release_mem, write, hq]

/-- The calls recorded by `reset()` are those of its release step. -/
theorem HandleNoOwner_reset_log (this : Nat) (w : World HandleNoOwner) :
    (HandleNoOwner.reset this w).log = (HandleNoOwner.Release this w).log := rfl

/-- Every step other than a move assignment of an object to itself keeps the
accounting invariant. -/
theorem HandleNoOwner_step_accounted (op : HandleNoOwnerOp) (s s1 : Prog HandleNoOwner)
    (T : List Nat)
    (hself : op.selfAssign = false) (hstep : HandleNoOwner.step op s = some s1)
    (hacc : HandleNoOwner.Accounted s T) : HandleNoOwner.Accounted s1 (T ++ op.taken) := by
  obtain ⟨hnd, hperm⟩ := hacc
  cases op with
  | construct this h t =>
    by_cases hl : this ∈ s.live
    · simp [HandleNoOwner.step, hl] at hstep
    · simp [HandleNoOwner.step, hl] at hstep
      subst hstep
      refine ⟨List.nodup_cons.2 ⟨hl, hnd⟩, ?_⟩
      simp only [HandleNoOwner.held, HandleNoOwner_ctor_handle, heldOf_cons, if_true,
        heldOf_update_new _ _ _ _ hl, HandleNoOwnerOp.taken]
      rw [List.perm_iff_count] at hperm ⊢
      intro a
      have := hperm a
      simp only [HandleNoOwner.held, List.count_append, HandleNoOwner.ctor] at this ⊢
      omega
  | constructDefault this =>
    by_cases hl : this ∈ s.live
    · simp [HandleNoOwner.step, hl] at hstep
    · simp [HandleNoOwner.step, hl] at hstep
      subst hstep
      refine ⟨List.nodup_cons.2 ⟨hl, hnd⟩, ?_⟩
      simp only [HandleNoOwner.held, HandleNoOwner_ctorDefault_handle, heldOf_cons, if_true,
        heldOf_update_new _ _ _ _ hl, HandleNoOwnerOp.taken, nonNull_nullptr]
      simpa [HandleNoOwner.held, HandleNoOwner.ctorDefault] using hperm
  | moveConstruct this rhs =>
    by_cases hl : this ∈ s.live ∨ rhs ∉ s.live
    · simp [HandleNoOwner.step, hl] at hstep
    · simp [HandleNoOwner.step, hl] at hstep
      subst hstep
      have hl1 : this ∉ s.live := fun h => hl (Or.inl h)
      have hl2 : rhs ∈ s.live := by
        by_contra h
        exact hl (Or.inr h)
      refine ⟨List.nodup_cons.2 ⟨hl1, hnd⟩, ?_⟩
      have h1 := heldOf_update (fun q => (s.world.mem q).handle) s.live rhs nullptr hl2 hnd
      have h2 := heldOf_erase (fun q => (s.world.mem q).handle) s.live rhs hl2
      simp only [HandleNoOwner.held, HandleNoOwner_moveCtor_handle, heldOf_cons, if_true,
        heldOf_update_new _ _ _ _ hl1, HandleNoOwnerOp.taken, HandleNoOwner_moveCtor_log]
      rw [List.perm_iff_count] at hperm h1 h2 ⊢
      intro a
      have e0 := hperm a
      have e1 := h1 a
      have e2 := h2 a
      simp only [HandleNoOwner.held, List.count_append, nonNull_nullptr, List.count_nil]
        at e0 e1 e2 ⊢
      omega
  | moveAssign this rhs =>
    by_cases hl : this ∈ s.live ∧ rhs ∈ s.live
    · simp [HandleNoOwner.step, hl] at hstep
      subst hstep
      have hne : this ≠ rhs := by simpa [HandleNoOwnerOp.selfAssign] using hself
      have hne2 : rhs ≠ this := fun e => hne e.symm
      refine ⟨hnd, ?_⟩
      have hl3 : rhs ∈ s.live.erase this := (List.mem_erase_of_ne hne2).2 hl.2
      have g1 := heldOf_update
        (fun r => if r = rhs then nullptr else (s.world.mem r).handle) s.live this
        (s.world.mem rhs).handle hl.1 hnd
      have g2 := heldOf_update (fun q => (s.world.mem q).handle) (s.live.erase this) rhs nullptr
        hl3 (hnd.erase this)
      have g3 := heldOf_erase (fun q => (s.world.mem q).handle) s.live this hl.1
      have g4 := heldOf_erase (fun q => (s.world.mem q).handle) (s.live.erase this) rhs hl3
      simp only [HandleNoOwner.held, HandleNoOwner_moveAssign_eq, HandleNoOwner_moveCtor_handle,
        HandleNoOwner_moveCtor_log,
        HandleNoOwner_Release_mem, HandleNoOwner_Release_destroyed, HandleNoOwnerOp.taken]
      rw [List.perm_iff_count] at hperm g1 g2 g3 g4 ⊢
      intro a
      have e0 := hperm a
      have e1 := g1 a
      have e2 := g2 a
      have e3 := g3 a
      have e4 := g4 a
      simp only [HandleNoOwner.held, List.count_append, nonNull_nullptr, List.count_nil]
        at e0 e1 e2 e3 e4 ⊢
      omega
    · simp [HandleNoOwner.step, hl] at hstep
  | reset this =>
    by_cases hl : this ∈ s.live
    · simp [HandleNoOwner.step, hl] at hstep
      subst hstep
      refine ⟨hnd, ?_⟩
      have g1 := heldOf_update (fun q => (s.world.mem q).handle) s.live this nullptr hl hnd
      have g3 := heldOf_erase (fun q => (s.world.mem q).handle) s.live this hl
      simp only [HandleNoOwner.held, HandleNoOwner_reset_handle, HandleNoOwner_reset_log,
        HandleNoOwner_Release_destroyed,
        HandleNoOwnerOp.taken]
      rw [List.perm_iff_count] at hperm g1 g3 ⊢
      intro a
      have e0 := hperm a
      have e1 := g1 a
      have e3 := g3 a
      simp only [HandleNoOwner.held, List.count_append, nonNull_nullptr, List.count_nil]
        at e0 e1 e3 ⊢
      omega
    · simp [HandleNoOwner.step, hl] at hstep
  | destroy this =>
    by_cases hl : this ∈ s.live
    · simp [HandleNoOwner.step, hl] at hstep
      subst hstep
      refine ⟨hnd.erase this, ?_⟩
      have g3 := heldOf_erase (fun q => (s.world.mem q).handle) s.live this hl
      simp only [HandleNoOwner.held, HandleNoOwner.dtor, HandleNoOwner_Release_mem,
        HandleNoOwner_Release_destroyed,
        HandleNoOwnerOp.taken]
      rw [List.perm_iff_count] at hperm g3 ⊢
      intro a
      have e0 := hperm a
      have e3 := g3 a
      simp only [HandleNoOwner.held, List.count_append, nonNull_nullptr, List.count_nil]
        at e0 e3 ⊢
      omega
    · simp [HandleNoOwner.step, hl] at hstep

/-- A run without a move assignment of an object to itself keeps the
accounting invariant. -/
theorem HandleNoOwner_run_accounted (ops : List HandleNoOwnerOp) :
    ∀ (s s1 : Prog HandleNoOwner) (T : List Nat),
      (∀ op ∈ ops, HandleNoOwnerOp.selfAssign op = false) →
      HandleNoOwner.run ops s = some s1 → HandleNoOwner.Accounted s T →
      HandleNoOwner.Accounted s1 (T ++ HandleNoOwnerOp.takenAll ops) := by
  induction ops with
  | nil =>
    intro s s1 T _ hrun hacc
    simp [HandleNoOwner.run] at hrun
    subst hrun
    simpa [HandleNoOwnerOp.takenAll] using hacc
  | cons op ops ih =>
    intro s s1 T hself hrun hacc
    cases hstep : HandleNoOwner.step op s with
    | none => simp [HandleNoOwner.run, hstep] at hrun
    | some s2 =>
      simp only [HandleNoOwner.run, hstep] at hrun
      have h2 := HandleNoOwner_step_accounted op s s2 T (hself op (List.mem_cons_self _ _))
        hstep hacc
      have h3 := ih s2 s1 (T ++ op.taken) (fun o ho => hself o (List.mem_cons_of_mem _ ho))
        hrun h2
      simpa [HandleNoOwnerOp.takenAll, List.append_assoc] using h3

/-- Single ownership away from self-assignment: in a run from the initial
state in which the constructors take pairwise distinct non-null handle values
and no object is move-assigned to itself, at every point a non-null handle
value is held by at most one live object, no value is passed to `Destroy`
twice, no held value has been passed to `Destroy`, and once every object is
destroyed each value taken into ownership has been passed to `Destroy` exactly
once. -/
theorem HandleNoOwner_single_owner_without_self_assign (ops : List HandleNoOwnerOp)
    (m : Nat → HandleNoOwner)
    (s : Prog HandleNoOwner) (hself : ∀ op ∈ ops, HandleNoOwnerOp.selfAssign op = false)
    (hfresh : (HandleNoOwnerOp.takenAll ops).Nodup)
    (hrun : HandleNoOwner.run ops (Prog.init m) = some s) :
    (∀ p ∈ s.live, ∀ q ∈ s.live, (s.world.mem p).handle = (s.world.mem q).handle →
      (s.world.mem p).handle ≠ nullptr → p = q) ∧
    (∀ h, (destroyedHandles s.world.log).count h ≤ 1) ∧
    (∀ h ∈ HandleNoOwner.held s, h ∉ destroyedHandles s.world.log) ∧
    (s.live = [] →
      ∀ h ∈ HandleNoOwnerOp.takenAll ops, (destroyedHandles s.world.log).count h = 1) := by
  have hacc := HandleNoOwner_run_accounted ops (Prog.init m) s [] hself hrun
    ⟨by simp [Prog.init], by simp [Prog.init, HandleNoOwner.held, heldOf, destroyedHandles]⟩
  simp only [List.nil_append] at hacc
  obtain ⟨_, hperm⟩ := hacc
  have hnd : (HandleNoOwner.held s ++ destroyedHandles s.world.log).Nodup :=
    hperm.nodup_iff.2 hfresh
  have hnd2 := List.nodup_append.1 hnd
  refine ⟨?_, ?_, ?_, ?_⟩
  · intro p hp q hq he hn
    exact heldOf_injOn (fun r => (s.world.mem r).handle) s.live hnd2.1 p q hp hq he hn
  · intro h
    exact List.nodup_iff_count_le_one.1 hnd2.2.1 h
  · intro h hh hd
    exact hnd2.2.2 hh hd
  · intro hlive h hh
    have hc := hperm.count_eq h
    simp only [HandleNoOwner.held, hlive, heldOf, List.filter_nil, List.map_nil,
      List.nil_append] at hc
    rw [hc]
    exact List.count_eq_one_of_mem hfresh hh

/-- The example program satisfies the conditions of single ownership and ends
with both handle values passed to `Destroy` exactly once each. -/
theorem HandleNoOwner_single_owner_example :
    (∀ op ∈ HandleNoOwner.exampleOps, HandleNoOwnerOp.selfAssign op = false) ∧
    (HandleNoOwnerOp.takenAll HandleNoOwner.exampleOps).Nodup ∧
    HandleNoOwner.run HandleNoOwner.exampleOps (Prog.init fun _ => default)
      = some HandleNoOwner.exampleEnd ∧
    destroyedHandles HandleNoOwner.exampleEnd.world.log = [7, 8] ∧
    (HandleNoOwner.exampleEnd.live = [] →
      ∀ h ∈ HandleNoOwnerOp.takenAll HandleNoOwner.exampleOps,
      (destroyedHandles HandleNoOwner.exampleEnd.world.log).count h = 1) :=
  ⟨by decide, by decide, rfl, by decide,
   (HandleNoOwner_single_owner_without_self_assign HandleNoOwner.exampleOps (fun _ => default)
      HandleNoOwner.exampleEnd (by decide) (by decide) rfl).2.2.2⟩

/-! ## Pool batch -/

/-- C8, counterexample: a batch constructed from the array 100 of
`2 ^ 32 + 4` allocations, a count its `std::size_t` represents, and then
destroyed, `Free` reporting success, records one `Free` call whose span has
data pointer 100 and `size()` 4, not the number of allocations. -/
theorem PoolAllocations_destroy_span_size_truncates :
    (100 : Nat) ≠ nullptr ∧ (2 ^ 32 + 4 : Nat) < 2 ^ 64 ∧
    (PoolAllocations.dtor freeSucceeds 1
        (PoolAllocations.ctor 1 100 (2 ^ 32 + 4) 6 5 9 PoolWorld.init)).terminated = false ∧
    (PoolAllocations.dtor freeSucceeds 1
        (PoolAllocations.ctor 1 100 (2 ^ 32 + 4) 6 5 9 PoolWorld.init)).state.log.map
          (fun c => (c.device, c.pool, Span.data c.span, Span.size c.span, c.dld))
      = [(6, 5, 100, 4, 9)] ∧
    (4 : Nat) ≠ 2 ^ 32 + 4 := by
  refine ⟨?_, ?_, ?_, ?_, ?_⟩ <;> decide

/-- C8, amended: a batch constructed from a present array `a` of `N`
allocations with device `d`, pool `p` and table `t` and then destroyed, `Free`
reporting success, returns normally and adds exactly one call to the recorded
`Free` calls: `d`, `p`, the span with data pointer `a` and stored element count
`N`, and `t`.  The `size()` of that span is `N` converted to a 32-bit unsigned
integer, `N mod 2 ^ 32`, and is `N` exactly when `N < 2 ^ 32`.  Destroying a
batch whose array is absent, such as a default-constructed one, returns
normally and records no call, whatever `Free` would answer. -/
theorem PoolAllocations_destroy_frees_once (Free : FreeFn) (this a N d p t : Nat)
    (w w0 : PoolWorld) (ha : a ≠ nullptr)
    (hFree : Free w.log { device := d, pool := p, span := { ptr := a, num := N }, dld := t }
        = VK_SUCCESS)
    (h0 : (w0.mem this).allocations = nullptr) :
    PoolAllocations.dtor Free this (PoolAllocations.ctor this a N d p t w)
        = Exec.returns
            { mem := (PoolAllocations.ctor this a N d p t w).mem
              log := w.log ++
                [{ device := d, pool := p, span := { ptr := a, num := N }, dld := t }] } ∧
    PoolAllocations.dtor Free this w0 = Exec.returns w0 ∧
    PoolAllocations.dtor Free this (PoolAllocations.ctorDefault this w)
        = Exec.returns (PoolAllocations.ctorDefault this w) ∧
    (PoolAllocations.dtor Free this (PoolAllocations.ctor this a N d p t w)).state.log.map
          (fun c => (c.device, c.pool, Span.data c.span, Span.size c.span, c.dld))
      = w.log.map (fun c => (c.device, c.pool, Span.data c.span, Span.size c.span, c.dld))
          ++ [(d, p, a, N % 2 ^ 32, t)] ∧
    (Span.size { ptr := a, num := N } = N ↔ N < 2 ^ 32) := by
  have hdtor : PoolAllocations.dtor Free this (PoolAllocations.ctor this a N d p t w)
      = Exec.returns
          { mem := (PoolAllocations.ctor this a N d p t w).mem
            log := w.log ++
              [{ device := d, pool := p, span := { ptr := a, num := N }, dld := t }] } := by
    simp [PoolAllocations.dtor, PoolAllocations.Release, PoolAllocations.ctor,
      PoolAllocations.freeCall, Span.fromPtr, ha, hFree]
  refine ⟨hdtor, ?_, ?_, ?_, ?_⟩
  · simp [PoolAllocations.dtor, PoolAllocations.Release, h0]
  · simp [PoolAllocations.dtor, PoolAllocations.Release, PoolAllocations.ctorDefault]
  · rw [hdtor]
    simp [Exec.state, Span.data, Span.size]
  · simp only [Span.size]
    constructor
    · intro h
      rw [← h]
      exact Nat.mod_lt _ (by norm_num)
    · intro h
      exact Nat.mod_eq_of_lt h

/-- Witness of C8: the batch of the example world (array 100 with 4
allocations, device 6, pool 5, table 9) with a `Free` that succeeds. -/
theorem PoolAllocations_destroy_frees_once_witness :
    (100 : Nat) ≠ nullptr ∧
    (PoolWorld.init.mem 1).allocations = nullptr ∧
    (PoolAllocations.dtor freeSucceeds 1 (PoolAllocations.ctor 1 100 4 6 5 9 PoolWorld.init)
        = Exec.returns
            { mem := (PoolAllocations.ctor 1 100 4 6 5 9 PoolWorld.init).mem
              log := PoolWorld.init.log ++
                [{ device := 6, pool := 5, span := { ptr := 100, num := 4 }, dld := 9 }] } ∧
     PoolAllocations.dtor freeSucceeds 1 PoolWorld.init = Exec.returns PoolWorld.init ∧
     PoolAllocations.dtor freeSucceeds 1 (PoolAllocations.ctorDefault 1 PoolWorld.init)
        = Exec.returns (PoolAllocations.ctorDefault 1 PoolWorld.init)) ∧
    Span.size { ptr := 100, num := 4 } = 4 :=
  have h := PoolAllocations_destroy_frees_once freeSucceeds 1 100 4 6 5 9 PoolWorld.init
    PoolWorld.init (by decide) rfl rfl
  ⟨by decide, rfl, ⟨h.1, h.2.1, h.2.2.1⟩, h.2.2.2.2.2 (by decide)⟩

/-- C9: releasing a batch that holds an array, in the destructor or in the
release step of a move assignment, terminates the process if and only if the
`Free` call answers a status other than success, and completes normally if and
only if it answers success; releasing a batch with no array never terminates
the process. -/
theorem PoolAllocations_release_fail_fast (Free : FreeFn) (this rhs : Nat)
    (w w0 : PoolWorld) (ha : (w.mem this).allocations ≠ nullptr)
    (h0 : (w0.mem this).allocations = nullptr) :
    ((PoolAllocations.dtor Free this w).terminated = true
        ↔ Free w.log (PoolAllocations.freeCall this w) ≠ VK_SUCCESS) ∧
    ((PoolAllocations.moveAssign Free this rhs w).terminated = true
        ↔ Free w.log (PoolAllocations.freeCall this w) ≠ VK_SUCCESS) ∧
    ((PoolAllocations.dtor Free this w).terminated = false
        ↔ Free w.log (PoolAllocations.freeCall this w) = VK_SUCCESS) ∧
    ((PoolAllocations.moveAssign Free this rhs w).terminated = false
        ↔ Free w.log (PoolAllocations.freeCall this w) = VK_SUCCESS) ∧
    (PoolAllocations.dtor Free this w0).terminated = false ∧
    (PoolAllocations.moveAssign Free this rhs w0).terminated = false := by
  by_cases hr : Free w.log (PoolAllocations.freeCall this w) = VK_SUCCESS <;>
    simp [PoolAllocations.dtor, PoolAllocations.moveAssign, PoolAllocations.Release,
      Exec.terminated, ha, h0, hr]

/-- Witness of C9: the batch of the example world holds an array, the
default-initialised batch of the initial world holds none; `Free` fails. -/
theorem PoolAllocations_release_fail_fast_witness :
    (PoolAllocations.exampleWorld.mem 1).allocations ≠ nullptr ∧
    (PoolWorld.init.mem 1).allocations = nullptr ∧
    (PoolAllocations.dtor freeFails 1 PoolAllocations.exampleWorld).terminated = true ∧
    (PoolAllocations.moveAssign freeFails 1 2 PoolAllocations.exampleWorld).terminated = true ∧
    (PoolAllocations.dtor freeFails 1 PoolWorld.init).terminated = false :=
  have h := PoolAllocations_release_fail_fast freeFails 1 2 PoolAllocations.exampleWorld
    PoolWorld.init (by decide) rfl
  ⟨by decide, rfl, h.1.mpr (by decide), h.2.1.mpr (by decide), h.2.2.2.2.1⟩

/-- The move assignment is the release step followed by the member-wise
transfer of the move constructor. -/
theorem PoolAllocations_moveAssign_eq (Free : FreeFn) (this rhs : Nat) (w : PoolWorld) :
    PoolAllocations.moveAssign Free this rhs w
      = match PoolAllocations.Release Free this w with
        | Exec.terminates w0 => Exec.terminates w0
        | Exec.returns w0 => Exec.returns (PoolAllocations.moveCtor this rhs w0) := by
  unfold PoolAllocations.moveAssign
  cases PoolAllocations.Release Free this w <;> rfl

/-- The release step leaves the objects as they are. -/
theorem PoolAllocations_Release_mem (Free : FreeFn) (this : Nat) (w : PoolWorld) :
    (PoolAllocations.Release Free this w).state.mem = w.mem := by
  unfold PoolAllocations.Release
  by_cases h : (w.mem this).allocations = nullptr
  · simp [h, Exec.state]
  · by_cases hr : Free w.log (PoolAllocations.freeCall this w) = VK_SUCCESS <;>
      simp [h, hr, Exec.state]

/-- The member-wise transfer between two distinct objects: the target becomes
what the source was, and the source loses its array. -/
theorem PoolAllocations_moveCtor_mem (this rhs : Nat) (w : PoolWorld) (h : this ≠ rhs) :
    (PoolAllocations.moveCtor this rhs w).mem
      = write (write w.mem rhs { w.mem rhs with allocations := nullptr }) this (w.mem rhs) := by
  have h2 : rhs ≠ this := fun e => h e.symm
  funext q
  by_cases hq : q = this
  · subst hq
    simp [PoolAllocations.moveCtor, PoolAllocations.setAllocations, PoolAllocations.setNum,
      PoolAllocations.setDevice, PoolAllocations.setPool, PoolAllocations.setDld, write, h, h2]
  · by_cases hr : q = rhs
    · subst hr
      simp [PoolAllocations.moveCtor, PoolAllocations.setAllocations, PoolAllocations.setNum,
        PoolAllocations.setDevice, PoolAllocations.setPool, PoolAllocations.setDld, write, h,
        hq]
    · simp [PoolAllocations.moveCtor, PoolAllocations.setAllocations, PoolAllocations.setNum,
        PoolAllocations.setDevice, PoolAllocations.setPool, PoolAllocations.setDld, write, hq,
        hr]

/-- The member-wise transfer from an object to itself leaves the objects as
they are. -/
theorem PoolAllocations_moveCtor_self_mem (this : Nat) (w : PoolWorld) :
    (PoolAllocations.moveCtor this this w).mem = w.mem := by
  funext q
  by_cases hq : q = this
  · subst hq
    simp [PoolAllocations.moveCtor, PoolAllocations.setAllocations, PoolAllocations.setNum,
      PoolAllocations.setDevice, PoolAllocations.setPool, PoolAllocations.setDld, write]
  · simp [PoolAllocations.moveCtor, PoolAllocations.setAllocations, PoolAllocations.setNum,
      PoolAllocations.setDevice, PoolAllocations.setPool, PoolAllocations.setDld, write, hq]

/-- A step that returns keeps the invariant that a live batch holding an array
has a device, provided a constructor is not given an array without a device. -/
theorem PoolAllocations_step_arrayHasDevice (Free : FreeFn) (op : PoolOp) (s s1 : PoolProg)
    (hop : op.deviceGiven = true)
    (hstep : PoolAllocations.step Free op s = some (Exec.returns s1))
    (hinv : s.arrayHasDevice) : s1.arrayHasDevice := by
  cases op with
  | construct this a n d p t =>
    by_cases hl : this ∈ s.live
    · simp [PoolAllocations.step, hl] at hstep
    · simp [PoolAllocations.step, hl] at hstep
      subst hstep
      intro q hq hqa
      by_cases hqt : q = this
      · subst hqt
        simp [PoolAllocations.ctor] at hqa ⊢
        simp [PoolOp.deviceGiven] at hop
        rcases hop with h | h
        · exact absurd h hqa
        · exact h
      · have hq2 : q ∈ s.live := by simpa [hqt] using hq
        simp [PoolAllocations.ctor, write, hqt] at hqa ⊢
        exact hinv q hq2 hqa
  | constructDefault this =>
    by_cases hl : this ∈ s.live
    · simp [PoolAllocations.step, hl] at hstep
    · simp [PoolAllocations.step, hl] at hstep
      subst hstep
      intro q hq hqa
      by_cases hqt : q = this
      · subst hqt
        simp [PoolAllocations.ctorDefault] at hqa
      · have hq2 : q ∈ s.live := by simpa [hqt] using hq
        simp [PoolAllocations.ctorDefault, write, hqt] at hqa ⊢
        exact hinv q hq2 hqa
  | moveConstruct this rhs =>
    by_cases hl : this ∈ s.live ∨ rhs ∉ s.live
    · simp [PoolAllocations.step, hl] at hstep
    · simp [PoolAllocations.step, hl] at hstep
      subst hstep
      have hl1 : this ∉ s.live := fun h => hl (Or.inl h)
      have hl2 : rhs ∈ s.live := by
        by_contra h
        exact hl (Or.inr h)
      have hne : this ≠ rhs := fun e => hl1 (e ▸ hl2)
      intro q hq hqa
      simp only [PoolAllocations_moveCtor_mem this rhs s.world hne] at hqa ⊢
      by_cases hqt : q = this
      · subst hqt
        simp at hqa ⊢
        exact hinv rhs hl2 hqa
      · have hq2 : q ∈ s.live := by simpa [hqt] using hq
        by_cases hqr : q = rhs
        · subst hqr
          simp [write, hqt] at hqa
        · simp [write, hqt, hqr] at hqa ⊢
          exact hinv q hq2 hqa
  | moveAssign this rhs =>
    by_cases hl : this ∈ s.live ∧ rhs ∈ s.live
    · have hR := PoolAllocations_Release_mem Free this s.world
      simp only [PoolAllocations.step, hl, and_self, if_true,
        PoolAllocations_moveAssign_eq] at hstep
      cases hrel : PoolAllocations.Release Free this s.world with
      | terminates w0 => simp [hrel] at hstep
      | returns w0 =>
        simp only [hrel, Exec.state] at hstep hR
        simp at hstep
        subst hstep
        intro q hq hqa
        by_cases hne : this = rhs
        · subst hne
          simp only [PoolAllocations_moveCtor_self_mem, hR] at hqa ⊢
          exact hinv q hq hqa
        · simp only [PoolAllocations_moveCtor_mem this rhs w0 hne, hR] at hqa ⊢
          by_cases hqt : q = this
          · subst hqt
            simp at hqa ⊢
            exact hinv rhs hl.2 hqa
          · by_cases hqr : q = rhs
            · subst hqr
              simp [write, hqt] at hqa
            · simp [write, hqt, hqr] at hqa ⊢
              exact hinv q hq hqa
    · simp [PoolAllocations.step, hl] at hstep
  | destroy this =>
    by_cases hl : this ∈ s.live
    · have hR := PoolAllocations_Release_mem Free this s.world
      simp only [PoolAllocations.step, hl, if_true, PoolAllocations.dtor] at hstep
      cases hrel : PoolAllocations.Release Free this s.world with
      | terminates w0 => simp [hrel] at hstep
      | returns w0 =>
        simp only [hrel, Exec.state] at hstep hR
        simp at hstep
        subst hstep
        intro q hq hqa
        simp only [hR] at hqa ⊢
        exact hinv q (List.mem_of_mem_erase hq) hqa
    · simp [PoolAllocations.step, hl] at hstep

/-- A run that returns keeps the invariant that a live batch holding an array
has a device. -/
theorem PoolAllocations_run_arrayHasDevice (Free : FreeFn) (ops : List PoolOp) :
    ∀ s s1 : PoolProg, (∀ op ∈ ops, PoolOp.deviceGiven op = true) →
      PoolAllocations.run Free ops s = some (Exec.returns s1) →
      s.arrayHasDevice → s1.arrayHasDevice := by
  induction ops with
  | nil =>
    intro s s1 _ hrun hinv
    simp [PoolAllocations.run] at hrun
    subst hrun
    exact hinv
  | cons op ops ih =>
    intro s s1 hops hrun hinv
    have hop : PoolOp.deviceGiven op = true := hops op (List.mem_cons_self _ _)
    have hrest : ∀ o ∈ ops, PoolOp.deviceGiven o = true :=
      fun o ho => hops o (List.mem_cons_of_mem _ ho)
    cases hstep : PoolAllocations.step Free op s with
    | none => simp [PoolAllocations.run, hstep] at hrun
    | some e =>
      cases e with
      | terminates s2 => simp [PoolAllocations.run, hstep] at hrun
      | returns s2 =>
        simp only [PoolAllocations.run, hstep] at hrun
        exact ih s2 s1 hrest hrun
          (PoolAllocations_step_arrayHasDevice Free op s s2 hop hstep hinv)

/-- C10, counterexample: the public constructor given the present array 100
and the null device builds a batch for which `IsOutOfPoolMemory()` returns true
although its array is present, so the batch is not in the out of pool memory
state. -/
theorem PoolAllocations_IsOutOfPoolMemory_with_array_present :
    ∃ s : PoolProg,
      PoolAllocations.run freeSucceeds [PoolOp.construct 1 100 4 nullptr 5 9]
          (PoolProg.init fun _ => default) = some (Exec.returns s) ∧
      1 ∈ s.live ∧
      PoolAllocations.IsOutOfPoolMemory 1 s.world = true ∧
      (s.world.mem 1).allocations = 100 ∧
      ¬ PoolAllocations.outOfPoolState 1 s.world :=
  ⟨{ world := PoolAllocations.ctor 1 100 4 nullptr 5 9 { mem := fun _ => default, log := [] }
     live := [1] },
   rfl, by decide, rfl, rfl, by simp [PoolAllocations.outOfPoolState, PoolAllocations.ctor,
     nullptr]⟩

/-- C10, amended: for every batch, `IsOutOfPoolMemory()` returns true if and
only if its device is unset; and for every batch reachable through the public
constructors and move operations, where no constructor call is given a present
array together with a null device, `IsOutOfPoolMemory()` returns true if and
only if the batch is in the out of pool memory state, its array absent and its
device unset. -/
theorem PoolAllocations_IsOutOfPoolMemory_iff (Free : FreeFn) (ops : List PoolOp)
    (m : Nat → PoolAllocations) (s : PoolProg) (p : Nat)
    (hops : ∀ op ∈ ops, PoolOp.deviceGiven op = true)
    (hrun : PoolAllocations.run Free ops (PoolProg.init m) = some (Exec.returns s))
    (hp : p ∈ s.live) :
    (∀ (q : Nat) (w : PoolWorld),
      PoolAllocations.IsOutOfPoolMemory q w = true ↔ (w.mem q).device = nullptr) ∧
    (PoolAllocations.IsOutOfPoolMemory p s.world = true
      ↔ PoolAllocations.outOfPoolState p s.world) := by
  have hinv : s.arrayHasDevice :=
    PoolAllocations_run_arrayHasDevice Free ops (PoolProg.init m) s hops hrun
      (by intro q hq; simp [PoolProg.init] at hq)
  constructor
  · intro q w
    simp [PoolAllocations.IsOutOfPoolMemory]
  · simp only [PoolAllocations.IsOutOfPoolMemory, PoolAllocations.outOfPoolState, beq_iff_eq]
    constructor
    · intro hd
      refine ⟨?_, hd⟩
      by_contra ha
      exact hinv p hp ha hd
    · intro h
      exact h.2

/-- Witness of C10: the example program; the moved-from batch at address 1 is
alive at its end. -/
theorem PoolAllocations_IsOutOfPoolMemory_iff_witness :
    (∀ op ∈ PoolAllocations.exampleOps, PoolOp.deviceGiven op = true) ∧
    PoolAllocations.run freeSucceeds PoolAllocations.exampleOps (PoolProg.init fun _ => default)
      = some (Exec.returns PoolAllocations.exampleProg) ∧
    1 ∈ PoolAllocations.exampleProg.live ∧
    (PoolAllocations.IsOutOfPoolMemory 1 PoolAllocations.exampleProg.world = true
      ↔ PoolAllocations.outOfPoolState 1 PoolAllocations.exampleProg.world) :=
  ⟨by decide, rfl, by decide,
   (PoolAllocations_IsOutOfPoolMemory_iff freeSucceeds PoolAllocations.exampleOps
      (fun _ => default) PoolAllocations.exampleProg 1 (by decide) rfl (by decide)).2⟩

/-- C15, the failing run: a batch is constructed with the array 100 of 4
allocations, move-assigned from itself and destroyed, `Free` reporting success
throughout.  The self-assignment records one `Free` call for the array and the
batch still holds the array; the destructor then records a second `Free` call
for the same array, and the run ends with every batch destroyed. -/
theorem PoolAllocations_self_move_assign_frees_twice :
    (PoolAllocations.run freeSucceeds
        [PoolOp.construct 1 100 4 6 5 9, PoolOp.moveAssign 1 1]
        (PoolProg.init fun _ => default)).map
          (fun e => (e.terminated, PoolAllocations.data 1 e.state.world, e.state.world.log,
            e.state.live))
      = some (false, 100,
          [{ device := 6, pool := 5, span := { ptr := 100, num := 4 }, dld := 9 }], [1]) ∧
    (PoolAllocations.run freeSucceeds
        [PoolOp.construct 1 100 4 6 5 9, PoolOp.moveAssign 1 1, PoolOp.destroy 1]
        (PoolProg.init fun _ => default)).map
          (fun e => (e.terminated, e.state.world.log, e.state.live))
      = some (false,
          [{ device := 6, pool := 5, span := { ptr := 100, num := 4 }, dld := 9 },
           { device := 6, pool := 5, span := { ptr := 100, num := 4 }, dld := 9 }], []) := by
  constructor <;> decide

/-! ## Single release of pool batches -/

/-- The held arrays of a list of addresses, one address at a time. -/
theorem heldArrays_cons (f : Nat → Nat × Nat) (p : Nat) (l : List Nat) :
    heldArrays f (p :: l) = nonNullArray (f p) ++ heldArrays f l := by
  by_cases h : (f p).1 = nullptr <;> simp [heldArrays, nonNullArray, List.filter_cons, h]

/-- The held arrays do not depend on the order of the addresses, up to order. -/
theorem heldArrays_perm (f : Nat → Nat × Nat) {l l1 : List Nat} (h : l.Perm l1) :
    (heldArrays f l).Perm (heldArrays f l1) :=
  (h.filter _).map _

/-- The held arrays depend only on the batches at the given addresses. -/
theorem heldArrays_congr (f g : Nat → Nat × Nat) (l : List Nat) (h : ∀ p ∈ l, f p = g p) :
    heldArrays f l = heldArrays g l := by
  induction l with
  | nil => rfl
  | cons a l ih =>
    rw [heldArrays_cons, heldArrays_cons, h a (List.mem_cons_self _ _),
      ih (fun p hp => h p (List.mem_cons_of_mem _ hp))]

/-- The held arrays split into the array at one address and those at the
others. -/
theorem heldArrays_erase (f : Nat → Nat × Nat) (l : List Nat) (this : Nat) (h : this ∈ l) :
    (heldArrays f l).Perm (nonNullArray (f this) ++ heldArrays f (l.erase this)) := by
  have := heldArrays_perm f (List.perm_cons_erase h)
  rwa [heldArrays_cons] at this

/-- A write at an address outside the list does not change the held arrays. -/
theorem heldArrays_write_new (f : Nat → Nat × Nat) (l : List Nat) (this : Nat) (v : Nat × Nat)
    (h : this ∉ l) :
    heldArrays (fun q => if q = this then v else f q) l = heldArrays f l := by
  apply heldArrays_congr
  intro p hp
  have : p ≠ this := fun e => h (e ▸ hp)
  simp [this]

/-- A write at one of the addresses replaces the array held there. -/
theorem heldArrays_write (f : Nat → Nat × Nat) (l : List Nat) (this : Nat) (v : Nat × Nat)
    (h : this ∈ l) (hnd : l.Nodup) :
    (heldArrays (fun q => if q = this then v else f q) l).Perm
      (nonNullArray v ++ heldArrays f (l.erase this)) := by
  have h1 := heldArrays_erase (fun q => if q = this then v else f q) l this h
  have h2 : heldArrays (fun q => if q = this then v else f q) (l.erase this)
      = heldArrays f (l.erase this) :=
    heldArrays_write_new f (l.erase this) this v
      (fun hm => (List.Nodup.mem_erase_iff hnd).1 hm |>.1 rfl)
  simpa [h2] using h1

/-- A batch without an array contributes nothing. -/
theorem nonNullArray_nullptr (n : Nat) : nonNullArray (nullptr, n) = [] := by
  simp [nonNullArray]

/-- The arrays of the batches after a constructor call. -/
theorem PoolAllocations_ctor_array (this a n d p t : Nat) (w : PoolWorld) :
    (fun q => ((PoolAllocations.ctor this a n d p t w).mem q).array)
      = fun q => if q = this then (a, n) else (w.mem q).array := by
  funext q
  by_cases hq : q = this <;> simp [PoolAllocations.ctor, PoolAllocations.array, write, hq]

/-- The arrays of the batches after a default constructor call. -/
theorem PoolAllocations_ctorDefault_array (this : Nat) (w : PoolWorld) :
    (fun q => ((PoolAllocations.ctorDefault this w).mem q).array)
      = fun q => if q = this then (nullptr, 0) else (w.mem q).array := by
  funext q
  by_cases hq : q = this <;>
    simp [PoolAllocations.ctorDefault, PoolAllocations.array, write, hq]

/-- The arrays of the batches after the member-wise transfer between two
distinct batches: the target holds what the source held and the source holds
none. -/
theorem PoolAllocations_moveCtor_array (this rhs : Nat) (w : PoolWorld) (h : this ≠ rhs) :
    (fun q => ((PoolAllocations.moveCtor this rhs w).mem q).array)
      = fun q => if q = this then (w.mem rhs).array
          else (fun r => if r = rhs then (nullptr, (w.mem rhs).num) else (w.mem r).array) q := by
  funext q
  rw [PoolAllocations_moveCtor_mem this rhs w h]
  by_cases hq : q = this
  · simp [write, hq]
  · by_cases hr : q = rhs
    · subst hr
      simp [write, hq, PoolAllocations.array]
    · simp [write, hq, hr]

/-- The release step passes the held array, with its count, to `Free` when
there is one, whether or not the process terminates afterwards. -/
theorem PoolAllocations_Release_freed (Free : FreeFn) (this : Nat) (w : PoolWorld) :
    freedArrays (PoolAllocations.Release Free this w).state.log
      = freedArrays w.log ++ nonNullArray (w.mem this).array := by
  unfold PoolAllocations.Release
  by_cases h : (w.mem this).allocations = nullptr
  · simp [h, Exec.state, nonNullArray, PoolAllocations.array]
  · by_cases hr : Free w.log (PoolAllocations.freeCall this w) = VK_SUCCESS <;>
      simp [h, hr, Exec.state, nonNullArray, PoolAllocations.array, freedArrays] <;>
      simp [PoolAllocations.freeCall, Span.fromPtr]

/-- Every step that returns, other than a move assignment of a batch to
itself, keeps the accounting invariant. -/
theorem PoolAllocations_step_accounted (Free : FreeFn) (op : PoolOp) (s s1 : PoolProg)
    (T : List (Nat × Nat)) (hself : op.selfAssign = false)
    (hstep : PoolAllocations.step Free op s = some (Exec.returns s1))
    (hacc : s.Accounted T) : s1.Accounted (T ++ op.taken) := by
  obtain ⟨hnd, hperm⟩ := hacc
  cases op with
  | construct this a n d p t =>
    by_cases hl : this ∈ s.live
    · simp [PoolAllocations.step, hl] at hstep
    · simp [PoolAllocations.step, hl] at hstep
      subst hstep
      refine ⟨List.nodup_cons.2 ⟨hl, hnd⟩, ?_⟩
      simp only [PoolProg.held, PoolAllocations_ctor_array, heldArrays_cons, if_true,
        heldArrays_write_new _ _ _ _ hl, PoolOp.taken]
      rw [List.perm_iff_count] at hperm ⊢
      intro x
      have := hperm x
      simp only [PoolProg.held, List.count_append, PoolAllocations.ctor] at this ⊢
      omega
  | constructDefault this =>
    by_cases hl : this ∈ s.live
    · simp [PoolAllocations.step, hl] at hstep
    · simp [PoolAllocations.step, hl] at hstep
      subst hstep
      refine ⟨List.nodup_cons.2 ⟨hl, hnd⟩, ?_⟩
      simp only [PoolProg.held, PoolAllocations_ctorDefault_array, heldArrays_cons, if_true,
        heldArrays_write_new _ _ _ _ hl, PoolOp.taken, nonNullArray_nullptr]
      simpa [PoolProg.held, PoolAllocations.ctorDefault] using hperm
  | moveConstruct this rhs =>
    by_cases hl : this ∈ s.live ∨ rhs ∉ s.live
    · simp [PoolAllocations.step, hl] at hstep
    · simp [PoolAllocations.step, hl] at hstep
      subst hstep
      have hl1 : this ∉ s.live := fun h => hl (Or.inl h)
      have hl2 : rhs ∈ s.live := by
        by_contra h
        exact hl (Or.inr h)
      have hne : this ≠ rhs := fun e => hl1 (e ▸ hl2)
      refine ⟨List.nodup_cons.2 ⟨hl1, hnd⟩, ?_⟩
      have h1 := heldArrays_write (fun q => (s.world.mem q).array) s.live rhs
        (nullptr, (s.world.mem rhs).num) hl2 hnd
      have h2 := heldArrays_erase (fun q => (s.world.mem q).array) s.live rhs hl2
      have hlog : (PoolAllocations.moveCtor this rhs s.world).log = s.world.log := rfl
      simp only [PoolProg.held, PoolAllocations_moveCtor_array _ _ _ hne, heldArrays_cons,
        if_true, heldArrays_write_new _ _ _ _ hl1, PoolOp.taken, hlog]
      rw [List.perm_iff_count] at hperm h1 h2 ⊢
      intro x
      have e0 := hperm x
      have e1 := h1 x
      have e2 := h2 x
      simp only [PoolProg.held, List.count_append, nonNullArray_nullptr, List.count_nil]
        at e0 e1 e2 ⊢
      omega
  | moveAssign this rhs =>
    by_cases hl : this ∈ s.live ∧ rhs ∈ s.live
    · have hR := PoolAllocations_Release_mem Free this s.world
      have hF := PoolAllocations_Release_freed Free this s.world
      simp only [PoolAllocations.step, hl, and_self, if_true,
        PoolAllocations_moveAssign_eq] at hstep
      cases hrel : PoolAllocations.Release Free this s.world with
      | terminates w0 => simp [hrel] at hstep
      | returns w0 =>
        simp only [hrel, Exec.state] at hstep hR hF
        simp at hstep
        subst hstep
        have hne : this ≠ rhs := by simpa [PoolOp.selfAssign] using hself
        have hne2 : rhs ≠ this := fun e => hne e.symm
        refine ⟨hnd, ?_⟩
        have hl3 : rhs ∈ s.live.erase this := (List.mem_erase_of_ne hne2).2 hl.2
        have g1 := heldArrays_write
          (fun r => if r = rhs then (nullptr, (s.world.mem rhs).num) else (s.world.mem r).array)
          s.live this (s.world.mem rhs).array hl.1 hnd
        have g2 := heldArrays_write (fun q => (s.world.mem q).array) (s.live.erase this) rhs
          (nullptr, (s.world.mem rhs).num) hl3 (hnd.erase this)
        have g3 := heldArrays_erase (fun q => (s.world.mem q).array) s.live this hl.1
        have g4 := heldArrays_erase (fun q => (s.world.mem q).array) (s.live.erase this) rhs hl3
        have hlog : (PoolAllocations.moveCtor this rhs w0).log = w0.log := rfl
        simp only [PoolProg.held, PoolAllocations_moveCtor_array _ _ _ hne, hlog, hR, hF,
          PoolOp.taken]
        rw [List.perm_iff_count] at hperm g1 g2 g3 g4 ⊢
        intro x
        have e0 := hperm x
        have e1 := g1 x
        have e2 := g2 x
        have e3 := g3 x
        have e4 := g4 x
        simp only [PoolProg.held, List.count_append, nonNullArray_nullptr, List.count_nil]
          at e0 e1 e2 e3 e4 ⊢
        omega
    · simp [PoolAllocations.step, hl] at hstep
  | destroy this =>
    by_cases hl : this ∈ s.live
    · have hR := PoolAllocations_Release_mem Free this s.world
      have hF := PoolAllocations_Release_freed Free this s.world
      simp only [PoolAllocations.step, hl, if_true, PoolAllocations.dtor] at hstep
      cases hrel : PoolAllocations.Release Free this s.world with
      | terminates w0 => simp [hrel] at hstep
      | returns w0 =>
        simp only [hrel, Exec.state] at hstep hR hF
        simp at hstep
        subst hstep
        refine ⟨hnd.erase this, ?_⟩
        have g3 := heldArrays_erase (fun q => (s.world.mem q).array) s.live this hl
        simp only [PoolProg.held, hR, hF, PoolOp.taken]
        rw [List.perm_iff_count] at hperm g3 ⊢
        intro x
        have e0 := hperm x
        have e3 := g3 x
        simp only [PoolProg.held, List.count_append, List.count_nil] at e0 e3 ⊢
        omega
    · simp [PoolAllocations.step, hl] at hstep

/-- A run that returns, without a move assignment of a batch to itself, keeps
the accounting invariant. -/
theorem PoolAllocations_run_accounted (Free : FreeFn) (ops : List PoolOp) :
    ∀ (s s1 : PoolProg) (T : List (Nat × Nat)),
      (∀ op ∈ ops, PoolOp.selfAssign op = false) →
      PoolAllocations.run Free ops s = some (Exec.returns s1) → s.Accounted T →
      s1.Accounted (T ++ PoolOp.takenAll ops) := by
  induction ops with
  | nil =>
    intro s s1 T _ hrun hacc
    simp [PoolAllocations.run] at hrun
    subst hrun
    simpa [PoolOp.takenAll] using hacc
  | cons op ops ih =>
    intro s s1 T hself hrun hacc
    cases hstep : PoolAllocations.step Free op s with
    | none => simp [PoolAllocations.run, hstep] at hrun
    | some e =>
      cases e with
      | terminates s2 => simp [PoolAllocations.run, hstep] at hrun
      | returns s2 =>
        simp only [PoolAllocations.run, hstep] at hrun
        have h2 := PoolAllocations_step_accounted Free op s s2 T
          (hself op (List.mem_cons_self _ _)) hstep hacc
        have h3 := ih s2 s1 (T ++ op.taken)
          (fun o ho => hself o (List.mem_cons_of_mem _ ho)) hrun h2
        simpa [PoolOp.takenAll, List.append_assoc] using h3

/-- Single release away from self-assignment: in a run from the initial state
that returns, in which the constructors take pairwise distinct arrays and no
batch is move-assigned to itself, at every point an array is held by at most
one live batch, no array is passed to `Free` twice, and every `Free` call is
for an array taken into ownership with its whole count; once every batch is
destroyed the `Free` calls are, up to order, exactly the arrays taken into
ownership, each passed once. -/
theorem PoolAllocations_single_free_without_self_assign (Free : FreeFn) (ops : List PoolOp)
    (m : Nat → PoolAllocations) (s : PoolProg)
    (hself : ∀ op ∈ ops, PoolOp.selfAssign op = false)
    (hfresh : ((PoolOp.takenAll ops).map Prod.fst).Nodup)
    (hrun : PoolAllocations.run Free ops (PoolProg.init m) = some (Exec.returns s)) :
    (∀ p ∈ s.live, ∀ q ∈ s.live,
      (s.world.mem p).allocations = (s.world.mem q).allocations →
      (s.world.mem p).allocations ≠ nullptr → p = q) ∧
    (∀ a, ((freedArrays s.world.log).map Prod.fst).count a ≤ 1) ∧
    (∀ x ∈ freedArrays s.world.log, x ∈ PoolOp.takenAll ops) ∧
    (s.live = [] → (freedArrays s.world.log).Perm (PoolOp.takenAll ops)) ∧
    (s.live = [] → ∀ x ∈ PoolOp.takenAll ops,
      ((freedArrays s.world.log).map Prod.fst).count x.1 = 1) := by
  have hacc := PoolAllocations_run_accounted Free ops (PoolProg.init m) s [] hself hrun
    ⟨by simp [PoolProg.init], by simp [PoolProg.init, PoolProg.held, heldArrays, freedArrays]⟩
  simp only [List.nil_append] at hacc
  obtain ⟨_, hperm⟩ := hacc
  have hnd : ((s.held ++ freedArrays s.world.log).map Prod.fst).Nodup :=
    (hperm.map Prod.fst).nodup_iff.2 hfresh
  rw [List.map_append] at hnd
  have hnd2 := List.nodup_append.1 hnd
  have hend : s.live = [] → (freedArrays s.world.log).Perm (PoolOp.takenAll ops) := by
    intro hlive
    simpa [PoolProg.held, hlive, heldArrays] using hperm
  refine ⟨?_, ?_, ?_, hend, ?_⟩
  · intro p hp q hq he hn
    have hp2 : p ∈ s.live.filter fun r => ((s.world.mem r).array).1 != nullptr := by
      simp [List.mem_filter, hp, PoolAllocations.array, hn]
    have hq2 : q ∈ s.live.filter fun r => ((s.world.mem r).array).1 != nullptr := by
      have : (s.world.mem q).allocations ≠ nullptr := he ▸ hn
      simp [List.mem_filter, hq, PoolAllocations.array, this]
    have hmap : (List.map (fun r => (s.world.mem r).allocations)
        (s.live.filter fun r => ((s.world.mem r).array).1 != nullptr)).Nodup := by
      have := hnd2.1
      simpa [PoolProg.held, heldArrays, List.map_map, Function.comp_def,
        PoolAllocations.array] using this
    exact List.inj_on_of_nodup_map hmap hp2 hq2 he
  · intro a
    exact List.nodup_iff_count_le_one.1 hnd2.2.1 a
  · intro x hx
    exact hperm.subset (List.mem_append_right _ hx)
  · intro hlive x hx
    have hc := ((hend hlive).map Prod.fst).count_eq x.1
    rw [hc]
    exact List.count_eq_one_of_mem hfresh (List.mem_map_of_mem _ hx)

/-- The second example program satisfies the conditions of single release and
ends with both arrays passed to `Free` once each, with their whole counts. -/
theorem PoolAllocations_single_free_example :
    (∀ op ∈ PoolAllocations.exampleOps2, PoolOp.selfAssign op = false) ∧
    ((PoolOp.takenAll PoolAllocations.exampleOps2).map Prod.fst).Nodup ∧
    PoolAllocations.run freeSucceeds PoolAllocations.exampleOps2
      (PoolProg.init fun _ => default) = some (Exec.returns PoolAllocations.exampleEnd2) ∧
    freedArrays PoolAllocations.exampleEnd2.world.log = [(100, 4), (200, 3)] ∧
    (PoolAllocations.exampleEnd2.live = [] →
      (freedArrays PoolAllocations.exampleEnd2.world.log).Perm
        (PoolOp.takenAll PoolAllocations.exampleOps2)) :=
  ⟨by decide, by decide, rfl, by decide,
   (PoolAllocations_single_free_without_self_assign freeSucceeds PoolAllocations.exampleOps2
      (fun _ => default) PoolAllocations.exampleEnd2 (by decide) (by decide) rfl).2.2.2.1⟩

/-! ## Span -/

/-- C13: for every value `v`, stored at the address `p` of a memory `m`, the
span constructed from that single value has `size() == 1`, is not empty, has
`span[0]` equal to `v`, and its `end()` is exactly one element past its
`begin()`; the default-constructed span has `size() == 0` and is empty. -/
theorem Span_from_value_has_one_element {α : Type} (m : Nat → α) (p : Nat) (v : α) :
    Span.size (Span.fromValue p) = 1 ∧
    Span.empty (Span.fromValue p) = false ∧
    Span.index (write m p v) (Span.fromValue p) 0 = v ∧
    Span.end_ (Span.fromValue p) = Span.begin (Span.fromValue p) + 1 ∧
    Span.size Span.ctorDefault = 0 ∧
    Span.empty Span.ctorDefault = true := by
  refine ⟨?_, ?_, ?_, ?_, ?_, ?_⟩ <;>
    simp [Span.size, Span.empty, Span.index, Span.end_, Span.begin, Span.fromValue,
      Span.ctorDefault, write]

/-- On the machine the distance `end() - begin()` follows the wrapped byte
address: with one-byte elements the count `2 ^ 64 - 1` gives `-1`, with
eight-byte elements the count `2 ^ 61` gives 0 and the count `2 ^ 61 + 5` gives
5, which is also `size()`. -/
theorem Span_distance_wraps :
    Span.distance 1 (Span.fromPtr 4096 (2 ^ 64 - 1)) = -1 ∧
    Span.distance 8 (Span.fromPtr 4096 (2 ^ 61)) = 0 ∧
    Span.distance 8 (Span.fromPtr 4096 (2 ^ 61 + 5)) = 5 ∧
    Span.size (Span.fromPtr 4096 (2 ^ 61 + 5)) = 5 := by
  refine ⟨?_, ?_, ?_, ?_⟩ <;> decide

/-- As long as the elements lie in the address space, the byte address of
`end()` below `2 ^ 64` and the byte length below `2 ^ 63`, the distance
`end() - begin()` is the stored count. -/
theorem Span_distance_in_range (elemSize ptr n : Nat) (hsz : 0 < elemSize)
    (hfit : ptr + n * elemSize < 2 ^ 64) (hdiff : n * elemSize < 2 ^ 63) :
    Span.distance elemSize (Span.fromPtr ptr n) = (n : Int) := by
  have hp : ptr < 2 ^ 64 := by omega
  have h1 : (ptr + n * elemSize) % 2 ^ 64 = ptr + n * elemSize := Nat.mod_eq_of_lt hfit
  have h2 : ptr % 2 ^ 64 = ptr := Nat.mod_eq_of_lt hp
  have h3 : (ptr + n * elemSize + 2 ^ 64 - ptr) % 2 ^ 64 = n * elemSize := by
    have : ptr + n * elemSize + 2 ^ 64 - ptr = n * elemSize + 2 ^ 64 := by omega
    rw [this, Nat.add_mod_right]
    exact Nat.mod_eq_of_lt (by omega)
  simp only [Span.distance, Span.endAddr, Span.beginAddr, Span.fromPtr, toPtrdiff, h1, h2, h3,
    hdiff, if_true]
  push_cast
  exact Int.mul_tdiv_cancel _ (by exact_mod_cast hsz.ne')

/-- C16, counterexample: the span built from the pointer 4096 and the count
`2 ^ 32`, a 64-bit size value, over eight-byte elements that lie in the address
space, is not empty although `size()` is 0, and the distance from `begin()` to
`end()` is `2 ^ 32`, not `size()`. -/
theorem Span_size_zero_not_empty :
    (2 : Nat) ^ 32 < 2 ^ 64 ∧
    (4096 + 2 ^ 32 * 8 : Nat) < 2 ^ 64 ∧ (2 ^ 32 * 8 : Nat) < 2 ^ 63 ∧
    Span.empty (Span.fromPtr 4096 (2 ^ 32)) = false ∧
    Span.size (Span.fromPtr 4096 (2 ^ 32)) = 0 ∧
    Span.distance 8 (Span.fromPtr 4096 (2 ^ 32)) = 2 ^ 32 ∧
    Span.distance 8 (Span.fromPtr 4096 (2 ^ 32))
      ≠ (Span.size (Span.fromPtr 4096 (2 ^ 32)) : Int) := by
  refine ⟨?_, ?_, ?_, ?_, ?_, ?_, ?_⟩ <;> decide

/-- C16, amended: for every span built from a pointer and an element count
`n`, `empty()` returns true if and only if the stored count `n` is 0, and
`size()` is `n` converted to a 32-bit unsigned integer, `n mod 2 ^ 32`; so
`empty()` agrees with `size() == 0` exactly when `n` is 0 or not a multiple of
`2 ^ 32`.  When the `n` elements, of `elemSize` bytes each, lie in the address
space, the byte address of `end()` below `2 ^ 64` and the byte length below
`2 ^ 63`, the distance `end() - begin()` equals `n`; then `empty()` agrees with
`size() == 0` and the distance equals `size()` exactly when `n < 2 ^ 32`. -/
theorem Span_empty_and_length (elemSize ptr n : Nat) :
    (Span.empty (Span.fromPtr ptr n) = true ↔ n = 0) ∧
    Span.size (Span.fromPtr ptr n) = n % 2 ^ 32 ∧
    ((Span.empty (Span.fromPtr ptr n) = true ↔ Span.size (Span.fromPtr ptr n) = 0)
      ↔ (n = 0 ∨ n % 2 ^ 32 ≠ 0)) ∧
    (0 < elemSize → ptr + n * elemSize < 2 ^ 64 → n * elemSize < 2 ^ 63 →
      Span.distance elemSize (Span.fromPtr ptr n) = (n : Int) ∧
      (((Span.empty (Span.fromPtr ptr n) = true ↔ Span.size (Span.fromPtr ptr n) = 0) ∧
          Span.distance elemSize (Span.fromPtr ptr n)
            = (Span.size (Span.fromPtr ptr n) : Int))
        ↔ n < 2 ^ 32)) := by
  have he : Span.empty (Span.fromPtr ptr n) = true ↔ n = 0 := by
    simp [Span.empty, Span.fromPtr]
  have hs : Span.size (Span.fromPtr ptr n) = n % 2 ^ 32 := rfl
  refine ⟨he, hs, ?_, ?_⟩
  · rw [he, hs]
    constructor
    · intro h
      by_cases h0 : n % 2 ^ 32 = 0
      · exact Or.inl (h.2 h0)
      · exact Or.inr h0
    · rintro (h | h)
      · subst h
        simp
      · constructor
        · intro h0
          subst h0
          simp
        · intro h0
          exact absurd h0 h
  · intro hsz hfit hdiff
    have hd := Span_distance_in_range elemSize ptr n hsz hfit hdiff
    refine ⟨hd, ?_⟩
    rw [hd, hs, he]
    constructor
    · rintro ⟨_, h⟩
      have h2 : n = n % 2 ^ 32 := by exact_mod_cast h
      rw [h2]
      exact Nat.mod_lt _ (by norm_num)
    · intro h
      rw [Nat.mod_eq_of_lt h]
      exact ⟨Iff.rfl, rfl⟩

/-- Witness of C16: a span of 3 eight-byte elements at the address 4096, which
lie in the address space. -/
theorem Span_empty_and_length_witness :
    (0 : Nat) < 8 ∧ (4096 + 3 * 8 : Nat) < 2 ^ 64 ∧ (3 * 8 : Nat) < 2 ^ 63 ∧
    Span.distance 8 (Span.fromPtr 4096 3) = 3 ∧
    (Span.empty (Span.fromPtr 4096 3) = true ↔ Span.size (Span.fromPtr 4096 3) = 0) ∧
    Span.distance 8 (Span.fromPtr 4096 3) = (Span.size (Span.fromPtr 4096 3) : Int) :=
  have h := (Span_empty_and_length 8 4096 3).2.2.2 (by decide) (by decide) (by decide)
  ⟨by decide, by decide, by decide, h.1, (h.2.2 (by decide)).1, (h.2.2 (by decide)).2⟩

/-! ## Fence -/

/-- C14: for every fence and every entry point `vkWaitForFences`, `Wait` does
not raise and returns exactly the status the entry point answers, whatever it
is; the entry point is called through the table of the fence with the owner
device, one fence, the held one, wait-all set, and the timeout given.  Called
without an argument, the timeout passed is `2 ^ 64 - 1`. -/
theorem Fence_Wait_returns_native_status (vkWaitForFences : WaitForFencesFn)
    (this timeout : Nat) (w : World Handle) (s : VkResult) :
    Fence.Wait vkWaitForFences this timeout w
      = Except.ok (vkWaitForFences
          { dld := (w.mem this).dld, device := (w.mem this).owner, fenceCount := 1,
            fences := [(w.mem this).handle], waitAll := true, timeout := timeout }) ∧
    Fence.Wait (fun _ => s) this timeout w = Except.ok s ∧
    Fence.WaitDefault vkWaitForFences this w
      = Except.ok (vkWaitForFences
          { dld := (w.mem this).dld, device := (w.mem this).owner, fenceCount := 1,
            fences := [(w.mem this).handle], waitAll := true, timeout := 2 ^ 64 - 1 }) ∧
    Fence.WaitDefault (fun _ => s) this w = Except.ok s :=
  ⟨rfl, rfl, rfl, rfl⟩

end Vulkan.vk
